import Mathlib

/-!
Shallow embedding of the simulation core of `src/game.js` (Chrono Serpent).

Conventions:
* JS numbers are modelled as rationals (`ℚ`); all arithmetic in the modelled
  code paths is closed over `ℚ` except `Math.hypot`, which is irrational-valued
  and is therefore abstracted as an explicit distance-oracle parameter `Dist`
  threaded through the collision code (every theorem below holds for an
  arbitrary oracle, and witnesses instantiate it with a concrete function).
* `Math.round` / `Math.floor` become `jsRound` / `jsFloor` (`⌊x + 1/2⌋`, `⌊x⌋`).
* Randomness (mission-bag shuffles, spawn rolls, spawn positions, jitter) and
  kinematics (position integration of entities, which never touches the fields
  the claims are about) are supplied by oracle parameters; the `ValidOracles`
  predicate records exactly what the real code guarantees about them (draws
  come from the mission pool, kinematics only move entities, enemy shots have
  the fixed nonnegative damage of the source).
* Purely presentational effects (canvas drawing, audio cues, particles, camera
  shake, HUD/DOM writes, overlay text) are omitted.  Mission-event emission is
  additionally instrumented with a counter (`mineKillEvents`) that counts the
  `onEvent("mineKills", 1)` calls while the mission list itself is updated
  exactly as in the source.
-/

/-- Numeric clamp, from `game.js` line 37: `Math.max(min, Math.min(max, v))`. -/
def clamp (v lo hi : ℚ) : ℚ := max lo (min hi v)

/-- Linear interpolation, from `game.js` line 38: `a + (b - a) * t`. -/
def lerp (a b t : ℚ) : ℚ := a + (b - a) * t

/-- JS `Math.round` on a rational (round half toward `+∞`). -/
def jsRound (x : ℚ) : ℤ := ⌊x + 1/2⌋

/-- JS `Math.floor` on a rational. -/
def jsFloor (x : ℚ) : ℤ := ⌊x⌋

/-- Distance oracle standing in for `Math.hypot(x2-x1, y2-y1)` (line 39),
whose value is irrational in general.  All collision code takes it as a
parameter. -/
abbrev DistFn := ℚ → ℚ → ℚ → ℚ → ℚ

/-- Player state (the resource/ability fields of class `Snake`,
`game.js` lines 555-583; head position kept for collision tests, the
cosmetic segment/trail data is omitted). -/
structure Snake where
  hx : ℚ
  hy : ℚ
  maxHealth : ℚ
  health : ℚ
  shield : ℚ
  invulnTimer : ℚ
  dashCooldown : ℚ
  dashTime : ℚ
  temporalCooldown : ℚ
  temporalTime : ℚ
  primaryCooldown : ℚ
  mineCooldown : ℚ
  len : ℕ
  baseSpeed : ℚ

/-- Fresh player, from the `Snake` constructor (lines 556-583). -/
def Snake.make (x y : ℚ) : Snake :=
  { hx := x, hy := y, maxHealth := 100, health := 100, shield := 0,
    invulnTimer := 0, dashCooldown := 0, dashTime := 0,
    temporalCooldown := 0, temporalTime := 0, primaryCooldown := 0,
    mineCooldown := 0, len := 18, baseSpeed := 170 }

/-- `Snake.heal` (lines 607-609). -/
def Snake.heal (s : Snake) (amount : ℚ) : Snake :=
  { s with health := clamp (s.health + amount) 0 s.maxHealth }

/-- `Snake.addShield` (lines 611-613). -/
def Snake.addShield (s : Snake) (amount : ℚ) : Snake :=
  { s with shield := clamp (s.shield + amount) 0 120 }

/-- `Snake.applyDamage` (lines 615-628): returns the value the JS method
returns together with the updated snake. -/
def Snake.applyDamage (s : Snake) (amount : ℚ) : ℚ × Snake :=
  if s.invulnTimer > 0 then (0, s)
  else
    let absorbed := if s.shield > 0 then min s.shield amount else 0
    let remaining := amount - absorbed
    (amount,
      { s with shield := s.shield - absorbed,
               health := if remaining > 0 then s.health - remaining else s.health,
               invulnTimer := 1/5 })

/-- `Snake.grow` (lines 599-605); only the length matters to the model. -/
def Snake.grow (s : Snake) (amount : ℕ) : Snake :=
  { s with len := s.len + amount }

/-- Movement speed computed in `Snake.update` (lines 683-686). -/
def Snake.currentSpeed (s : Snake) : ℚ :=
  let speed := s.baseSpeed + ((s.len : ℚ) - 18) * (35/100)
  let speed := if s.dashTime > 0 then speed * (26/10) else speed
  if s.temporalTime > 0 then speed * (13/10) else speed

/-- Timer decrements at the top of `Snake.update` (lines 640-651). -/
def Snake.tickTimers (s : Snake) (dt : ℚ) : Snake :=
  let s := { s with invulnTimer := s.invulnTimer - dt,
                    primaryCooldown := s.primaryCooldown - dt,
                    dashCooldown := s.dashCooldown - dt,
                    temporalCooldown := s.temporalCooldown - dt,
                    mineCooldown := s.mineCooldown - dt }
  let s := if s.dashTime > 0 then { s with dashTime := s.dashTime - dt } else s
  if s.temporalTime > 0 then { s with temporalTime := s.temporalTime - dt } else s

/-- Dash activation (lines 653-658): `shift` consumed with cooldown ready. -/
def Snake.tryDash (pressed : Bool) (s : Snake) : Snake :=
  if pressed ∧ s.dashCooldown ≤ 0 then
    { s with dashCooldown := 7/2, dashTime := 24/100 }
  else s

/-- Temporal-burst activation (lines 660-664). -/
def Snake.tryTemporal (pressed : Bool) (s : Snake) : Snake :=
  if pressed ∧ s.temporalCooldown ≤ 0 then
    { s with temporalCooldown := 8, temporalTime := 22/10 }
  else s

/-- Enemy archetype tag (`type` strings of class `Enemy`). -/
inductive EType where
  | drone
  | runner
  | tank
  | sniper
  | boss
  deriving DecidableEq

/-- Enemy state (class `Enemy`, lines 286-341; velocity and fire cooldown are
kinematic/attack-pattern data that never feed back into the claimed
properties and are left to the kinematics oracle). -/
structure Enemy where
  etype : EType
  x : ℚ
  y : ℚ
  radius : ℚ
  maxHealth : ℚ
  health : ℚ
  speed : ℚ
  contactDamage : ℚ
  scoreValue : ℚ
  alive : Bool

/-- Base stats of the `Enemy` constructor before per-type overrides
(lines 287-301). -/
def Enemy.base (t : EType) (x y : ℚ) : Enemy :=
  { etype := t, x := x, y := y, radius := 14, maxHealth := 20, health := 20,
    speed := 85, contactDamage := 10, scoreValue := 40, alive := true }

/-- Per-type stat overrides of the `Enemy` constructor (lines 303-335). -/
def Enemy.typed (t : EType) (x y : ℚ) : Enemy :=
  match t with
  | .runner => { Enemy.base t x y with radius := 10, maxHealth := 14, health := 14, speed := 140, contactDamage := 7, scoreValue := 45 }
  | .tank => { Enemy.base t x y with radius := 18, maxHealth := 44, health := 44, speed := 56, contactDamage := 17, scoreValue := 85 }
  | .sniper => { Enemy.base t x y with radius := 12, maxHealth := 18, health := 18, speed := 76, contactDamage := 8, scoreValue := 60 }
  | .boss => { Enemy.base t x y with radius := 40, maxHealth := 320, health := 320, speed := 48, contactDamage := 22, scoreValue := 950 }
  | .drone  => Enemy.base t x y

/-- Level scaling applied at the end of the `Enemy` constructor
(lines 337-340). -/
def Enemy.make (t : EType) (x y levelScale : ℚ) : Enemy :=
  let e := Enemy.typed t x y
  let mh : ℚ := (jsRound (e.maxHealth * levelScale) : ℚ)
  { e with maxHealth := mh, health := mh,
           contactDamage := (jsRound (e.contactDamage * (7/10 + levelScale * (4/10))) : ℚ),
           speed := e.speed * (85/100 + levelScale * (2/10)) }

/-- `Enemy.takeDamage` (lines 343-348). -/
def Enemy.takeDamage (e : Enemy) (amount : ℚ) : Enemy :=
  let h := e.health - amount
  { e with health := h, alive := if h ≤ 0 then false else e.alive }

/-- Projectile state (class `Projectile`, lines 221-232; velocity and ttl are
advanced by the kinematics oracle). -/
structure Projectile where
  x : ℚ
  y : ℚ
  damage : ℚ
  radius : ℚ
  ttl : ℚ
  alive : Bool

/-- Mine state (class `Mine`, lines 256-264). -/
structure Mine where
  x : ℚ
  y : ℚ
  radius : ℚ
  armTime : ℚ
  ttl : ℚ
  alive : Bool

/-- Fresh mine, from the `Mine` constructor (lines 257-264). -/
def Mine.make (x y : ℚ) : Mine :=
  { x := x, y := y, radius := 10, armTime := 65/100, ttl := 6, alive := true }

/-- `Mine.update` (lines 266-270). -/
def Mine.update (m : Mine) (dt : ℚ) : Mine :=
  let m := { m with armTime := m.armTime - dt, ttl := m.ttl - dt }
  if m.ttl ≤ 0 then { m with alive := false } else m

/-- Pickup kind (`Core.kind`, line 442). -/
inductive CoreKind where
  | energy
  | health
  | shield
  deriving DecidableEq

/-- Pickup state (class `Core`, lines 435-443; the `pulse` animation phase is
cosmetic and omitted). -/
structure Core where
  x : ℚ
  y : ℚ
  radius : ℚ
  value : ℚ
  kind : CoreKind
  collected : Bool

/-- Mission type tag (the `type` strings of the mission pool, lines 510-516). -/
inductive MType where
  | runnerKills
  | coreCollect
  | secondsNoHit
  | mineKills
  | comboPeak
  deriving DecidableEq

/-- Mission state (class `Mission`, lines 467-479; the display text is
cosmetic and the type tag identifies the pool entry). -/
structure Mission where
  mtype : MType
  target : ℚ
  progress : ℚ
  done : Bool
  failed : Bool
  timer : Option ℚ
  maxTimer : Option ℚ
  reward : ℚ

/-- Fresh mission, from the `Mission` constructor (lines 468-479). -/
def Mission.make (t : MType) (target : ℚ) (timer : Option ℚ) : Mission :=
  { mtype := t, target := target, progress := 0, done := false, failed := false,
    timer := timer, maxTimer := timer, reward := 180 }

/-- `Mission.update` (lines 481-489). -/
def Mission.update (m : Mission) (dt : ℚ) : Mission :=
  if m.done ∨ m.failed then m
  else
    match m.timer with
    | none => m
    | some t =>
      let m := { m with timer := some (t - dt) }
      if t - dt ≤ 0 ∧ m.progress < m.target then { m with failed := true } else m

/-- `Mission.inc` (lines 491-497). -/
def Mission.inc (m : Mission) (amount : ℚ) : Mission :=
  if m.done ∨ m.failed then m
  else
    let p := m.progress + amount
    { m with progress := p, done := if p ≥ m.target then true else m.done }

/-- The mission template pool (`MissionSystem` constructor, lines 510-516). -/
def missionPool : List Mission :=
  [ Mission.make .runnerKills 6 none,
    Mission.make .coreCollect 8 none,
    Mission.make .secondsNoHit 30 (some 30),
    Mission.make .mineKills 5 none,
    Mission.make .comboPeak 10 none ]

/-- `MissionSystem.startLevel` (lines 519-526): the shuffled bag is an oracle
input; the source keeps the first 2 entries, or 3 on levels divisible by 3. -/
def startLevel (bag : List Mission) (level : ℕ) : List Mission :=
  bag.take (if level % 3 = 0 then 3 else 2)

/-- `MissionSystem.onEvent` (lines 544-548). -/
def missionsOnEvent (t : MType) (amount : ℚ) (ms : List Mission) : List Mission :=
  ms.map (fun m => if m.mtype = t then m.inc amount else m)

/-- `MissionSystem.rewardScore` (lines 550-552). -/
def rewardScore (ms : List Mission) : ℚ :=
  (ms.filter (fun m => m.done)).foldl (fun sum m => sum + m.reward) 0

/-- Body of the per-mission loop of `MissionSystem.update` (lines 528-542),
taking the game flags it reads (`flags.tookDamageThisLevel`, `comboTier`). -/
def missionTick (dt : ℚ) (tookDamage : Bool) (comboTier : ℤ) (m0 : Mission) : Mission :=
  let m := m0.update dt
  let m :=
    if m.mtype = .secondsNoHit ∧ ¬tookDamage then
      match m.maxTimer, m.timer with
      | some mx, some t =>
        let p := clamp (mx - t) 0 m.target
        { m with progress := p, done := if p ≥ m.target then true else m.done }
      | _, _ => m
    else m
  if m.mtype = .comboPeak then
    let p := max m.progress ((comboTier : ℚ))
    { m with progress := p, done := if p ≥ m.target then true else m.done }
  else m

/-- `MissionSystem.update` (lines 528-542). -/
def missionsUpdate (dt : ℚ) (tookDamage : Bool) (comboTier : ℤ)
    (ms : List Mission) : List Mission :=
  ms.map (missionTick dt tookDamage comboTier)

/-- Game status (`this.state` strings of class `Game`). -/
inductive GStatus where
  | menu
  | running
  | paused
  | gameover
  deriving DecidableEq

/-- Match state (the simulation fields of class `Game`, lines 752-794;
presentational fields such as `cameraShake`, `bgTime`, `starField` and the
sinks are omitted).  `mineKillEvents` instruments the number of
`onEvent("mineKills", 1)` emissions for mission tracking. -/
structure GameS where
  status : GStatus
  snake : Snake
  projectiles : List Projectile
  enemyProjectiles : List Projectile
  enemies : List Enemy
  cores : List Core
  mines : List Mine
  missions : List Mission
  score : ℚ
  level : ℕ
  xp : ℚ
  combo : ℚ
  comboTimer : ℚ
  comboTier : ℤ
  waveTime : ℚ
  spawnTimer : ℚ
  coreSpawnTimer : ℚ
  tookDamageThisLevel : Bool
  mineKillEvents : ℕ

/-- `Game.gainScore` (lines 908-933).  The freshly shuffled mission bag used
by `startLevel` on a level-up is supplied by the oracle `draw` (indexed by the
new level, matching `this.missionSystem.startLevel(this.level)` being called
after `this.level += 1`). -/
def gainScore (draw : ℕ → List Mission) (points : ℚ) (g : GameS) : GameS :=
  let value : ℚ := (jsRound (points * g.combo) : ℚ)
  let g := { g with score := g.score + value, xp := g.xp + points, comboTimer := 4,
                    combo := clamp (g.combo + 5/100) 1 6 }
  let g := { g with comboTier := max g.comboTier (jsFloor g.combo) }
  let needed : ℚ := 450 + (g.level : ℚ) * 170
  if g.xp ≥ needed then
    let g := { g with xp := g.xp - needed, level := g.level + 1,
                      tookDamageThisLevel := false }
    let missionReward := rewardScore g.missions
    let g := { g with score := g.score + missionReward }
    let g := { g with missions := startLevel (draw g.level) g.level }
    let snake := { g.snake with maxHealth := g.snake.maxHealth + 6 }
    let snake := { snake with health := min snake.maxHealth (snake.health + 18) }
    { g with snake := snake.addShield 18 }
  else g

/-- `Game.explodeEnemy` (lines 935-943); particles/audio omitted, the
mine-kill event emission is counted in `mineKillEvents`. -/
def explodeEnemy (draw : ℕ → List Mission) (enemy : Enemy) (isMine : Bool)
    (g : GameS) : GameS :=
  let g := gainScore draw enemy.scoreValue g
  let g := { g with snake := g.snake.grow (if enemy.etype = .boss then 4 else 1) }
  let g := if enemy.etype = .runner then
             { g with missions := missionsOnEvent .runnerKills 1 g.missions }
           else g
  if isMine then
    { g with missions := missionsOnEvent .mineKills 1 g.missions,
             mineKillEvents := g.mineKillEvents + 1 }
  else g

/-- Single step of the pickup-collection loop of `Game.handleCollisions`
(lines 946-962). -/
def coreStep (dist : DistFn) (draw : ℕ → List Mission) (g : GameS) (core : Core) : GameS :=
  if dist core.x core.y g.snake.hx g.snake.hy < 18 then
    let g :=
      match core.kind with
      | .energy => gainScore draw core.value g
      | .health => gainScore draw (core.value + 10) { g with snake := g.snake.heal 15 }
      | .shield => gainScore draw (core.value + 5) { g with snake := g.snake.addShield 20 }
    { g with missions := missionsOnEvent .coreCollect 1 g.missions }
  else g

/-- Pickup-collection pass of `Game.handleCollisions` (lines 946-963):
effects are applied in iteration order, then collected pickups are filtered
out (the head position that marked them is unchanged during the pass). -/
def corePass (dist : DistFn) (draw : ℕ → List Mission) (g0 : GameS) : GameS :=
  let g := g0.cores.foldl (coreStep dist draw) g0
  let keep := fun (c : Core) => ¬ dist c.x c.y g0.snake.hx g0.snake.hy < 18
  { g with cores := g0.cores.filter keep }

/-- Inner enemy loop for one player projectile (lines 965-977): hit the first
live enemy in range, damage it, and stop; returns the updated list and the
post-damage record of the enemy hit, if any. -/
def projHitEnemies (dist : DistFn) (p : Projectile) :
    List Enemy → List Enemy × Option Enemy
  | [] => ([], none)
  | e :: rest =>
    if e.alive ∧ dist p.x p.y e.x e.y < p.radius + e.radius then
      let hit := e.takeDamage p.damage
      (hit :: rest, some hit)
    else
      let r := projHitEnemies dist p rest
      (e :: r.1, r.2)

/-- Single step of the player-projectile pass (lines 965-977), threading the
game state and the processed projectile list. -/
def projStep (dist : DistFn) (draw : ℕ → List Mission)
    (acc : GameS × List Projectile) (p : Projectile) : GameS × List Projectile :=
  let g := acc.1
  if ¬p.alive then (g, acc.2 ++ [p])
  else
    match projHitEnemies dist p g.enemies with
    | (es, some hit) =>
      let g := { g with enemies := es }
      let g := if ¬hit.alive then explodeEnemy draw hit false g else g
      (g, acc.2 ++ [{ p with alive := false }])
    | (es, none) => ({ g with enemies := es }, acc.2 ++ [p])

/-- Player-projectile versus enemy pass of `Game.handleCollisions`
(lines 965-977). -/
def projectilePass (dist : DistFn) (draw : ℕ → List Mission) (g0 : GameS) : GameS :=
  let r := g0.projectiles.foldl (projStep dist draw) (g0, [])
  { r.1 with projectiles := r.2 }

/-- Blast applied to one enemy inside a detonation (lines 986-993). -/
def blastOne (dist : DistFn) (mx my : ℚ) (e : Enemy) : Enemy :=
  if e.alive ∧ dist mx my e.x e.y < 90 + e.radius then
    e.takeDamage (65 - dist mx my e.x e.y * (35/100))
  else e

/-- Whether the blast kills the enemy it is applied to. -/
def blastKills (dist : DistFn) (mx my : ℚ) (e : Enemy) : Bool :=
  e.alive ∧ dist mx my e.x e.y < 90 + e.radius ∧
    e.health - (65 - dist mx my e.x e.y * (35/100)) ≤ 0

/-- Single step of the detonation loop over all enemies (lines 986-993),
threading the game state and the processed enemy list. -/
def blastStep (dist : DistFn) (draw : ℕ → List Mission) (mx my : ℚ)
    (acc : GameS × List Enemy) (target : Enemy) : GameS × List Enemy :=
  let g := acc.1
  if ¬target.alive then (g, acc.2 ++ [target])
  else
    let d := dist mx my target.x target.y
    if d < 90 + target.radius then
      let hit := target.takeDamage (65 - d * (35/100))
      let g := if ¬hit.alive then explodeEnemy draw hit true g else g
      (g, acc.2 ++ [hit])
    else (g, acc.2 ++ [target])

/-- Detonation of a mine at `(mx, my)` (lines 985-993): falloff damage to
every live enemy within the blast radius, kills tagged as mine kills. -/
def mineBlast (dist : DistFn) (draw : ℕ → List Mission) (mx my : ℚ)
    (g0 : GameS) : GameS :=
  let r := g0.enemies.foldl (blastStep dist draw mx my) (g0, [])
  { r.1 with enemies := r.2 }

/-- Trigger test for an armed mine (lines 981-983): some live enemy overlaps
the mine within `mine.radius + enemy.radius + 3`. -/
def mineTrigger (dist : DistFn) (m : Mine) (es : List Enemy) : Bool :=
  es.any (fun e => e.alive ∧ dist m.x m.y e.x e.y < m.radius + e.radius + 3)

/-- Single step of the mine pass (lines 979-997): a dead or unarmed mine is
skipped; an armed mine touched by a live enemy detonates and is consumed. -/
def mineStep (dist : DistFn) (draw : ℕ → List Mission)
    (acc : GameS × List Mine) (m : Mine) : GameS × List Mine :=
  let g := acc.1
  if ¬m.alive ∨ m.armTime > 0 then (g, acc.2 ++ [m])
  else if mineTrigger dist m g.enemies then
    (mineBlast dist draw m.x m.y g, acc.2 ++ [{ m with alive := false }])
  else (g, acc.2 ++ [m])

/-- Mine versus enemy pass of `Game.handleCollisions` (lines 979-997). -/
def minePass (dist : DistFn) (draw : ℕ → List Mission) (g0 : GameS) : GameS :=
  let r := g0.mines.foldl (mineStep dist draw) (g0, [])
  { r.1 with mines := r.2 }

/-- Single step of the enemy-contact pass (lines 999-1012): contact damage
scaled by `dt * 3.5`; damage that lands resets the combo and flags the level
as damaged (camera shake and particles omitted). -/
def contactStep (dist : DistFn) (dt : ℚ) (g : GameS) (enemy : Enemy) : GameS :=
  if enemy.alive ∧ dist enemy.x enemy.y g.snake.hx g.snake.hy < enemy.radius + 11 then
    let r := g.snake.applyDamage (enemy.contactDamage * dt * (35/10))
    let g := { g with snake := r.2 }
    if r.1 > 0 then
      { g with tookDamageThisLevel := true, combo := 1, comboTimer := 0 }
    else g
  else g

/-- Enemy-contact pass of `Game.handleCollisions` (lines 999-1012). -/
def contactPass (dist : DistFn) (dt : ℚ) (g0 : GameS) : GameS :=
  g0.enemies.foldl (contactStep dist dt) g0

/-- Single step of the enemy-projectile pass (lines 1014-1026). -/
def enemyProjStep (dist : DistFn) (acc : GameS × List Projectile)
    (p : Projectile) : GameS × List Projectile :=
  let g := acc.1
  if ¬p.alive then (g, acc.2 ++ [p])
  else if dist p.x p.y g.snake.hx g.snake.hy < p.radius + 10 then
    let r := g.snake.applyDamage p.damage
    let g := { g with snake := r.2 }
    let g := if r.1 > 0 then
               { g with tookDamageThisLevel := true, combo := 1, comboTimer := 0 }
             else g
    (g, acc.2 ++ [{ p with alive := false }])
  else (g, acc.2 ++ [p])

/-- Enemy-projectile versus player pass of `Game.handleCollisions`
(lines 1014-1026). -/
def enemyProjPass (dist : DistFn) (g0 : GameS) : GameS :=
  let r := g0.enemyProjectiles.foldl (enemyProjStep dist) (g0, [])
  { r.1 with enemyProjectiles := r.2 }

/-- End-of-pass filtering (lines 1028-1031). -/
def collisionFilters (g : GameS) : GameS :=
  { g with projectiles := g.projectiles.filter (fun p => p.alive),
           enemyProjectiles := g.enemyProjectiles.filter (fun p => p.alive),
           mines := g.mines.filter (fun m => m.alive),
           enemies := g.enemies.filter (fun e => e.alive) }

/-- `Game.handleCollisions` (lines 945-1032): the five passes in source
order followed by the liveness filters. -/
def handleCollisions (dist : DistFn) (draw : ℕ → List Mission) (dt : ℚ)
    (g : GameS) : GameS :=
  collisionFilters
    (enemyProjPass dist
      (contactPass dist dt
        (minePass dist draw
          (projectilePass dist draw
            (corePass dist draw g)))))

/-- Clock bookkeeping at the top of `Game.update` (lines 1040-1051): the
world delta is dilated to `dt * 0.5` while a temporal burst is active, the
combo decay timer runs on the undilated delta, and an expired decay timer
relaxes the combo toward 1 by exponential interpolation. -/
def timersStep (dt : ℚ) (g : GameS) : GameS :=
  let slowFactor : ℚ := if g.snake.temporalTime > 0 then 1/2 else 1
  let scaledDt := dt * slowFactor
  let g := { g with waveTime := g.waveTime + scaledDt,
                    spawnTimer := g.spawnTimer - scaledDt,
                    coreSpawnTimer := g.coreSpawnTimer - scaledDt,
                    comboTimer := g.comboTimer - dt }
  if g.comboTimer ≤ 0 then { g with combo := lerp g.combo 1 (8/100) } else g

/-- Per-frame input intent (the `consume` results read by `Snake.update`). -/
structure InputFlags where
  dash : Bool
  temporal : Bool
  mine : Bool
  fire : Bool

/-- Resource-relevant part of `Snake.update` (lines 630-708): timer
decrements, ability activations and the entities they emit (mine drops and
primary-fire projectiles are oracle-positioned); head movement itself is
oracle-supplied since it never feeds back into the claimed properties. -/
def snakeStep (inp : InputFlags) (newMines : List Mine)
    (playerShots : List Projectile) (headPos : ℚ × ℚ) (dt : ℚ)
    (g : GameS) : GameS :=
  let s := (g.snake.tickTimers dt).tryDash inp.dash
  let s := s.tryTemporal inp.temporal
  let g :=
    if inp.mine ∧ s.mineCooldown ≤ 0 then
      { g with snake := { s with mineCooldown := 22/10 }, mines := g.mines ++ newMines }
    else { g with snake := s }
  let g :=
    if inp.fire ∧ g.snake.primaryCooldown ≤ 0 then
      { g with snake := { g.snake with primaryCooldown := 18/100 }, projectiles := g.projectiles ++ playerShots }
    else g
  { g with snake := { g.snake with hx := headPos.1, hy := headPos.2 } }

/-- Weighted archetype roll of `Game.spawnEnemy` (lines 872-876). -/
def rollType (roll : ℚ) : EType :=
  if roll < 35/100 then .runner
  else if roll < 55/100 then .sniper
  else if roll < 7/10 then .tank
  else .drone

/-- Whether a boss is present (`this.enemies.some((e) => e.type === "boss")`,
line 878). -/
def hasBoss (es : List Enemy) : Bool :=
  es.any (fun e => e.etype = .boss)

/-- `Game.spawnEnemy` (lines 871-901): weighted roll, unconditional boss
override on levels divisible by 4 when no boss is present, level-scaled
stats; spawn position is oracle-supplied (edge placement, lines 882-897). -/
def spawnEnemy (roll x y : ℚ) (g : GameS) : GameS :=
  let t := rollType roll
  let t := if g.level % 4 = 0 ∧ ¬hasBoss g.enemies then .boss else t
  let scale := 1 + ((g.level : ℚ) - 1) * (16/100)
  { g with enemies := g.enemies ++ [Enemy.make t x y scale] }

/-- Enemy-spawn block of `Game.update` (lines 1055-1060): when the spawn
timer has run out it is re-armed to the level-scaled cadence with oracle
jitter, and one enemy spawns (two from level 6 up). -/
def spawnBlock (rolls : List (ℚ × ℚ × ℚ)) (jitter : ℚ) (g : GameS) : GameS :=
  if g.spawnTimer ≤ 0 then
    let base := clamp (22/10 - (g.level : ℚ) * (8/100)) (45/100) (22/10)
    let g := { g with spawnTimer := base * jitter }
    let amount := if g.level ≥ 6 then 2 else 1
    (rolls.take amount).foldl (fun g r => spawnEnemy r.1 r.2.1 r.2.2 g) g
  else g

/-- Pickup-spawn block of `Game.update` (lines 1062-1065): gated by the cap
of 9 concurrent pickups; the new pickup and timer are oracle-supplied. -/
def coreSpawnBlock (newTimer : ℚ) (c : Core) (g : GameS) : GameS :=
  if g.coreSpawnTimer ≤ 0 ∧ g.cores.length < 9 then
    { g with coreSpawnTimer := newTimer, cores := g.cores ++ [c] }
  else g

/-- Oracle bundle for one tick: all randomness and kinematics consumed by
`Game.update`. -/
structure TickOracles where
  dist : DistFn
  draw : ℕ → List Mission
  inp : InputFlags
  newMines : List Mine
  playerShots : List Projectile
  headPos : ℚ × ℚ
  spawnRolls : List (ℚ × ℚ × ℚ)
  spawnJitter : ℚ
  coreTimer : ℚ
  newCore : Core
  moveEnemies : List Enemy → List Enemy
  moveProjs : List Projectile → List Projectile
  moveEnemyProjs : List Projectile → List Projectile
  fired : List Projectile

/-- Entity kinematics of `Game.update` (lines 1067-1071): enemy and
projectile motion is oracle-supplied at their respective deltas, mines arm
via `Mine.update`, and enemy shots fired during the enemy loop are
appended. -/
def kinStep (o : TickOracles) (dt : ℚ) (g : GameS) : GameS :=
  { g with enemies := o.moveEnemies g.enemies,
           projectiles := o.moveProjs g.projectiles,
           enemyProjectiles := o.moveEnemyProjs g.enemyProjectiles ++ o.fired,
           mines := g.mines.map (fun m => m.update dt) }

/-- Mission tick of `Game.update` (line 1075). -/
def missionStepG (dt : ℚ) (g : GameS) : GameS :=
  { g with missions := missionsUpdate dt g.tookDamageThisLevel g.comboTier g.missions }

/-- Death check of `Game.update` (lines 1079-1085). -/
def deathCheck (g : GameS) : GameS :=
  if g.snake.health ≤ 0 then { g with status := .gameover } else g

/-- `Game.update` (lines 1034-1089): clock bookkeeping and combo decay,
player update, spawn blocks, entity kinematics, collision resolution,
mission tick, and the death check, in source order.  Presentational steps
(particles, camera shake, HUD) are omitted. -/
def updateModel (o : TickOracles) (dt : ℚ) (g : GameS) : GameS :=
  if g.status ≠ .running then g
  else
    deathCheck
      (missionStepG dt
        (handleCollisions o.dist o.draw dt
          (kinStep o dt
            (coreSpawnBlock o.coreTimer o.newCore
              (spawnBlock o.spawnRolls o.spawnJitter
                (snakeStep o.inp o.newMines o.playerShots o.headPos dt
                  (timersStep dt g)))))))

/-- `Game.reset` (lines 832-855) producing the fresh match state; the snake
spawn point and the first mission bag are oracle-supplied. -/
def resetState (draw : ℕ → List Mission) (hx hy : ℚ) (st : GStatus) : GameS :=
  { status := st, snake := Snake.make hx hy, projectiles := [],
    enemyProjectiles := [], enemies := [], cores := [], mines := [],
    missions := startLevel (draw 1) 1, score := 0, level := 1, xp := 0,
    combo := 1, comboTimer := 0, comboTier := 1, waveTime := 0,
    spawnTimer := 0, coreSpawnTimer := 16/10, tookDamageThisLevel := false,
    mineKillEvents := 0 }

/-- `Game.startGame` (lines 857-860): reset then run. -/
def startGame (draw : ℕ → List Mission) (hx hy : ℚ) : GameS :=
  resetState draw hx hy .running

/-- Mission bags really drawn by `startLevel` are shuffles of the fixed pool
(lines 519-526), so every drawn mission is a pool template. -/
def ValidDraw (draw : ℕ → List Mission) : Prop :=
  ∀ n, ∀ m ∈ draw n, m ∈ missionPool

/-- What `Enemy.update` (lines 350-413) really does to the fields kept in the
model: it only moves the enemy. -/
def EnemyKin (a b : Enemy) : Prop :=
  b = { a with x := b.x, y := b.y }

/-- What `Projectile.update` (lines 234-242) really does to the fields kept
in the model: it moves the projectile and may expire it. -/
def ProjKin (a b : Projectile) : Prop :=
  b = { a with x := b.x, y := b.y, ttl := b.ttl, alive := b.alive }

/-- Constraints the real game guarantees about one tick's oracles: mission
bags come from the pool, kinematics only move entities (and expire
projectiles), enemy shots carry the source's nonnegative damages (12 for
snipers at line 385, 10 for bosses at line 400), and the spawn jitter is the
`randRange(0.75, 1.25)` factor of line 1057. -/
def ValidOracles (o : TickOracles) : Prop :=
  ValidDraw o.draw ∧
  (∀ es, List.Forall₂ EnemyKin es (o.moveEnemies es)) ∧
  (∀ ps, List.Forall₂ ProjKin ps (o.moveProjs ps)) ∧
  (∀ ps, List.Forall₂ ProjKin ps (o.moveEnemyProjs ps)) ∧
  (∀ p ∈ o.fired, p.damage = 12 ∨ p.damage = 10) ∧
  3/4 ≤ o.spawnJitter ∧ o.spawnJitter ≤ 5/4

/-- Reachable match states: a fresh start, ticks of the frame loop (with the
frame delta clamped to at most 50 ms, line 1208), pause transitions, and
restarts (lines 797-830, 857-860). -/
inductive Reach : GameS → Prop where
  | start (draw : ℕ → List Mission) (hx hy : ℚ) (hd : ValidDraw draw) :
      Reach (startGame draw hx hy)
  | step (g : GameS) (o : TickOracles) (dt : ℚ) (hg : Reach g)
      (ho : ValidOracles o) (h0 : 0 ≤ dt) (h1 : dt ≤ 1/20) :
      Reach (updateModel o dt g)
  | pause (g : GameS) (hg : Reach g) : Reach { g with status := .paused }
  | resume (g : GameS) (hg : Reach g) : Reach { g with status := .running }
  | restart (g : GameS) (draw : ℕ → List Mission) (hx hy : ℚ) (hg : Reach g)
      (hd : ValidDraw draw) : Reach (startGame draw hx hy)

/-- Deltas handed to each subsystem by one call of `Game.update`
(lines 1040-1076): `waveTime += scaledDt` and `spawnTimer/coreSpawnTimer -=
scaledDt` (1043-1046), `comboTimer -= dt` (1047), `snake.update(dt, ...)`
(1053), `enemy.update(scaledDt, ...)` (1068), `projectiles p.update(dt)`
(1069), `enemyProjectiles p.update(scaledDt)` (1070), `mine.update(dt)`
(1071), `handleCollisions(dt)` (1073), `missionSystem.update(dt, ...)`
(1075), `particles.update(dt)` (1076), `bgTime += dt` (1044). -/
structure TickDeltas where
  waveTime : ℚ
  bgTime : ℚ
  spawnTimer : ℚ
  coreSpawnTimer : ℚ
  comboTimer : ℚ
  snakeUpdate : ℚ
  enemies : ℚ
  projectiles : ℚ
  enemyProjectiles : ℚ
  mines : ℚ
  collisions : ℚ
  missions : ℚ
  particles : ℚ

/-- The delta routing of `Game.update` (lines 1040-1076): the world delta is
`dt * 0.5` exactly while `snake.temporalTime > 0`. -/
def tickDeltas (temporalTime dt : ℚ) : TickDeltas :=
  let slowFactor : ℚ := if temporalTime > 0 then 1/2 else 1
  let scaledDt := dt * slowFactor
  { waveTime := scaledDt, bgTime := dt, spawnTimer := scaledDt,
    coreSpawnTimer := scaledDt, comboTimer := dt, snakeUpdate := dt,
    enemies := scaledDt, projectiles := dt, enemyProjectiles := scaledDt,
    mines := dt, collisions := dt, missions := dt, particles := dt }

/-- Number of boss-tagged enemies in a collection. -/
def bossCount (es : List Enemy) : ℕ :=
  es.countP (fun e => e.etype = EType.boss)

/-- Per-mission shape invariant maintained by the engine, relative to the
current per-level damage flag.  Event-driven missions hold natural-number
progress below their natural-number target until done and have no timer;
the timed no-damage mission (`secondsNoHit`) has target 30 with its original
30-second timer, progress within `[0, 30]`, full progress and an expired
timer once done, and is only ever failed-but-not-done when damage was taken
this level; the combo-tier mission (`comboPeak`) has target 10, no timer,
progress within `[0, 6]`, and is never done or failed. -/
def MInv (took : Bool) (m : Mission) : Prop :=
  match m.mtype with
  | .runnerKills | .coreCollect | .mineKills =>
      m.timer = none ∧ m.failed = false ∧
      (∃ n : ℕ, m.progress = (n : ℚ)) ∧ (∃ k : ℕ, m.target = (k : ℚ)) ∧
      m.progress ≤ m.target ∧ (m.done = false → m.progress < m.target)
  | .secondsNoHit =>
      m.target = 30 ∧ m.maxTimer = some 30 ∧ (∃ t : ℚ, m.timer = some t) ∧
      0 ≤ m.progress ∧ m.progress ≤ 30 ∧
      (m.done = true → m.progress = 30 ∧ ∀ t, m.timer = some t → t ≤ 0) ∧
      (m.failed = true → m.done = true ∨ took = true)
  | .comboPeak =>
      m.target = 10 ∧ m.timer = none ∧ m.done = false ∧ m.failed = false ∧
      0 ≤ m.progress ∧ m.progress ≤ 6

/-- Match-state invariant: combo in `[1, 6]`, combo tier in `[1, 6]`, every
active mission well-shaped, and at most one boss present. -/
def GInv (g : GameS) : Prop :=
  1 ≤ g.combo ∧ g.combo ≤ 6 ∧ 1 ≤ g.comboTier ∧ g.comboTier ≤ 6 ∧
  (∀ m ∈ g.missions, MInv g.tookDamageThisLevel m) ∧
  bossCount g.enemies ≤ 1

/-- Resource-side invariant for the player bounds claim: shield within
`[0, 120]`, health at most the (nonnegative) max, only nonnegative damage
sources in play, and a started level. -/
def ResourceInv (g : GameS) : Prop :=
  0 ≤ g.snake.shield ∧ g.snake.shield ≤ 120 ∧
  g.snake.health ≤ g.snake.maxHealth ∧ 0 ≤ g.snake.maxHealth ∧
  (∀ e ∈ g.enemies, 0 ≤ e.contactDamage) ∧
  (∀ p ∈ g.enemyProjectiles, 0 ≤ p.damage) ∧
  1 ≤ g.level

/-- The snake-only part of `ResourceInv`. -/
def SnakeB (s : Snake) : Prop :=
  0 ≤ s.shield ∧ s.shield ≤ 120 ∧ s.health ≤ s.maxHealth ∧ 0 ≤ s.maxHealth

/-! ### Concrete fixtures used by witnesses and counterexamples -/

/-- Constant distance oracle: everything 5 units apart. -/
def cDist : DistFn := fun _ _ _ _ => 5

/-- Constant distance oracle: everything far apart. -/
def cDistFar : DistFn := fun _ _ _ _ => 1000

/-- Constant distance oracle: everything touching. -/
def cDistZero : DistFn := fun _ _ _ _ => 0

/-- Mission-bag oracle that always hands back the pool in order. -/
def cDraw : ℕ → List Mission := fun _ => missionPool

/-- Neutral input: no ability pressed. -/
def cInput : InputFlags :=
  { dash := false, temporal := false, mine := false, fire := false }

/-- Oracle bundle with no entity motion and everything far apart. -/
def cOracles : TickOracles :=
  { dist := cDistFar, draw := cDraw, inp := cInput, newMines := [],
    playerShots := [], headPos := (0, 0), spawnRolls := [], spawnJitter := 1,
    coreTimer := 2, newCore := { x := 0, y := 0, radius := 8, value := 25, kind := .energy, collected := false },
    moveEnemies := id, moveProjs := id, moveEnemyProjs := id, fired := [] }

/-- Oracle bundle with no entity motion and everything touching. -/
def cOraclesZero : TickOracles := { cOracles with dist := cDistZero }

/-- Fresh running match. -/
def cG : GameS := startGame cDraw 0 0

/-- Running state satisfying the resource bounds, at 10 health with a live
enemy projectile of damage 12 overlapping the player. -/
def cG1 : GameS :=
  { cG with snake := { cG.snake with health := 10 },
            enemyProjectiles := [{ x := 0, y := 0, damage := 12, radius := 4, ttl := 1, alive := true }] }

/-- A no-damage mission one hundredth of a second from its deadline at
progress 29.99. -/
def cMission : Mission :=
  { mtype := .secondsNoHit, target := 30, progress := 2999/100, done := false,
    failed := false, timer := some (1/100), maxTimer := some 30, reward := 180 }

/-- Running state carrying `cMission`. -/
def cG2 : GameS := { cG with missions := [cMission] }

/-- Running state with combo 2 and an expired combo decay timer. -/
def cG3 : GameS := { cG with combo := 2 }

/-- Running state with combo tier 3 and the experience bar one kill away
from a level-up. -/
def cG9 : GameS := { cG with combo := 3, comboTier := 3, xp := 600 }

/-- An armed mine at the origin. -/
def cMineArmed : Mine := { Mine.make 0 0 with armTime := 0 }

/-- Running state with one unscaled drone and `cMineArmed`. -/
def cGmine : GameS :=
  { cG with enemies := [Enemy.make .drone 0 0 1], mines := [cMineArmed] }

/-! ### Basic arithmetic facts about the numeric helpers -/

theorem clamp_lo_le (v lo hi : ℚ) : lo ≤ clamp v lo hi :=
  le_max_left _ _

theorem clamp_le_hi (v lo hi : ℚ) (h : lo ≤ hi) : clamp v lo hi ≤ hi :=
  max_le h (min_le_left _ _)

theorem clamp_le_of_le (v lo hi b : ℚ) (h1 : lo ≤ b) (h2 : v ≤ b) :
    clamp v lo hi ≤ b :=
  max_le h1 (le_trans (min_le_right _ _) h2)

theorem lerp_toward_one_lower (c : ℚ) (h : 1 ≤ c) : 1 ≤ lerp c 1 (2/25) := by
  unfold lerp
  nlinarith

theorem lerp_toward_one_upper (c : ℚ) (h : 1 ≤ c) : lerp c 1 (2/25) ≤ c := by
  unfold lerp
  nlinarith

theorem jsRound_nonneg (x : ℚ) (h : 0 ≤ x) : 0 ≤ jsRound x := by
  unfold jsRound
  exact Int.floor_nonneg.mpr (by linarith)

theorem jsFloor_le_six (x : ℚ) (h : x ≤ 6) : jsFloor x ≤ 6 := by
  unfold jsFloor
  calc ⌊x⌋ ≤ ⌊(6:ℚ)⌋ := Int.floor_le_floor h
  _ = 6 := by norm_num

theorem one_le_jsFloor (x : ℚ) (h : 1 ≤ x) : 1 ≤ jsFloor x := by
  unfold jsFloor
  calc (1:ℤ) = ⌊(1:ℚ)⌋ := by norm_num
  _ ≤ ⌊x⌋ := Int.floor_le_floor h

/-! ### Claim C4: the damage-application contract -/

theorem applyDamage_invuln (s : Snake) (a : ℚ) (h : s.invulnTimer > 0) :
    s.applyDamage a = (0, s) := by
  unfold Snake.applyDamage
  simp [h]

theorem applyDamage_active (s : Snake) (a : ℚ) (ha : 0 ≤ a)
    (hsh : 0 ≤ s.shield) (h : ¬s.invulnTimer > 0) :
    (s.applyDamage a).1 = a ∧
    (s.applyDamage a).2.shield = s.shield - min s.shield a ∧
    (s.applyDamage a).2.health = s.health - (a - min s.shield a) ∧
    (s.applyDamage a).2.invulnTimer = 1/5 := by
  have habs : (if s.shield > 0 then min s.shield a else 0) = min s.shield a := by
    rcases lt_or_le 0 s.shield with hpos | hz
    · rw [if_pos hpos]
    · have h0 : s.shield = 0 := le_antisymm hz hsh
      rw [if_neg (by rw [h0]; exact lt_irrefl 0), h0, min_eq_left ha]
  simp only [Snake.applyDamage, if_neg h, habs, true_and, and_true]
  rcases lt_or_le 0 (a - min s.shield a) with hrem | hrem
  · rw [if_pos hrem]
  · have hge : 0 ≤ a - min s.shield a := by
      have := min_le_right s.shield a
      linarith
    have hz2 : a - min s.shield a = 0 := le_antisymm hrem hge
    rw [hz2]
    simp

theorem foldl_fix {α β : Type} (f : β → α → β) (l : List α) (b : β)
    (h : ∀ a, f b a = b) : l.foldl f b = b := by
  induction l with
  | nil => rfl
  | cons x xs ih => rw [List.foldl_cons, h x]; exact ih

theorem contactStep_invuln (dist : DistFn) (dt : ℚ) (g : GameS) (e : Enemy)
    (h : g.snake.invulnTimer > 0) : contactStep dist dt g e = g := by
  simp only [contactStep, applyDamage_invuln _ _ h, gt_iff_lt, lt_self_iff_false,
    if_false]
  split_ifs with h1
  · rfl
  · rfl

theorem contactPass_invuln (dist : DistFn) (dt : ℚ) (g : GameS)
    (h : g.snake.invulnTimer > 0) : contactPass dist dt g = g :=
  foldl_fix _ _ _ (fun e => contactStep_invuln dist dt g e h)

theorem enemyProjStep_invuln (dist : DistFn) (g : GameS) (acc : List Projectile)
    (p : Projectile) (h : g.snake.invulnTimer > 0) :
    ∃ acc2, enemyProjStep dist (g, acc) p = (g, acc2) := by
  simp only [enemyProjStep, applyDamage_invuln _ _ h, gt_iff_lt, lt_self_iff_false,
    if_false]
  split_ifs with h1 h2
  · exact ⟨_, rfl⟩
  · exact ⟨_, rfl⟩
  · exact ⟨_, rfl⟩

theorem enemyProjFold_invuln (dist : DistFn) (l : List Projectile) (g : GameS)
    (acc : List Projectile) (h : g.snake.invulnTimer > 0) :
    (l.foldl (enemyProjStep dist) (g, acc)).1 = g := by
  induction l generalizing acc with
  | nil => rfl
  | cons p ps ih =>
    obtain ⟨acc2, hstep⟩ := enemyProjStep_invuln dist g acc p h
    rw [List.foldl_cons, hstep]
    exact ih _

theorem enemyProjPass_invuln (dist : DistFn) (g : GameS)
    (h : g.snake.invulnTimer > 0) :
    (enemyProjPass dist g).snake = g.snake ∧
    (enemyProjPass dist g).combo = g.combo ∧
    (enemyProjPass dist g).tookDamageThisLevel = g.tookDamageThisLevel := by
  have hfold := enemyProjFold_invuln dist g.enemyProjectiles g [] h
  simp only [enemyProjPass]
  rw [hfold]
  exact ⟨rfl, rfl, rfl⟩

/-- C4: for every damage amount `a ≥ 0` (every damage amount the source ever
passes is nonnegative): with the invulnerability timer positive,
`applyDamage` returns zero and leaves the whole player state unchanged, and
the damage passes leave combo and the took-damage flag unchanged; otherwise
the shield absorbs first up to its current value, the remainder comes off
health, a 0.2 s invulnerability window starts, and the return value is
nonzero exactly when the player's shield-plus-health total actually
dropped. -/
theorem claim_C4 (s : Snake) (a : ℚ) (ha : 0 ≤ a) (hsh : 0 ≤ s.shield) :
    (s.invulnTimer > 0 → s.applyDamage a = (0, s)) ∧
    (¬s.invulnTimer > 0 →
      (s.applyDamage a).1 = a ∧
      (s.applyDamage a).2.shield = s.shield - min s.shield a ∧
      (s.applyDamage a).2.health = s.health - (a - min s.shield a) ∧
      (s.applyDamage a).2.invulnTimer = 1/5 ∧
      ((s.applyDamage a).1 ≠ 0 ↔
        (s.applyDamage a).2.shield + (s.applyDamage a).2.health ≠
          s.shield + s.health)) ∧
    (∀ (dist : DistFn) (dt : ℚ) (g : GameS), g.snake.invulnTimer > 0 →
      contactPass dist dt g = g) ∧
    (∀ (dist : DistFn) (g : GameS), g.snake.invulnTimer > 0 →
      (enemyProjPass dist g).snake = g.snake ∧
      (enemyProjPass dist g).combo = g.combo ∧
      (enemyProjPass dist g).tookDamageThisLevel = g.tookDamageThisLevel) := by
  refine ⟨fun h => applyDamage_invuln s a h, fun h => ?_,
    fun dist dt g hg => contactPass_invuln dist dt g hg,
    fun dist g hg => enemyProjPass_invuln dist g hg⟩
  obtain ⟨h1, h2, h3, h4⟩ := applyDamage_active s a ha hsh h
  refine ⟨h1, h2, h3, h4, ?_⟩
  rw [h1, h2, h3]
  constructor
  · intro hne heq
    exact hne (by linarith)
  · intro hne heq
    exact hne (by rw [heq]; ring)

/-- Witness for C4 at a concrete input: a fresh player (shield 0, no
invulnerability) hit for 12 ends at health 88 with a 0.2 s window started. -/
theorem claim_C4_witness :
    (0:ℚ) ≤ 12 ∧ 0 ≤ (Snake.make 0 0).shield ∧
    ((Snake.make 0 0).applyDamage 12).2.health = 88 ∧
    ((Snake.make 0 0).applyDamage 12).2.invulnTimer = 1/5 := by
  have h := claim_C4 (Snake.make 0 0) 12 (by norm_num) (by norm_num [Snake.make])
  have h2 := (h.2.1 (by norm_num [Snake.make]))
  refine ⟨by norm_num, by norm_num [Snake.make], ?_, h2.2.2.2.1⟩
  have h3 := h2.2.2.1
  rw [h3]
  norm_num [Snake.make]

/-! ### Claim C5: mine detonation -/

theorem gainScore_ghost (draw : ℕ → List Mission) (p : ℚ) (g : GameS) :
    (gainScore draw p g).mineKillEvents = g.mineKillEvents ∧
    (gainScore draw p g).enemies = g.enemies ∧
    (gainScore draw p g).mines = g.mines := by
  simp only [gainScore]
  split_ifs with h
  · exact ⟨rfl, rfl, rfl⟩
  · exact ⟨rfl, rfl, rfl⟩

theorem explodeEnemy_ghost (draw : ℕ → List Mission) (e : Enemy) (g : GameS) :
    (explodeEnemy draw e true g).mineKillEvents = g.mineKillEvents + 1 ∧
    (explodeEnemy draw e true g).enemies = g.enemies ∧
    (explodeEnemy draw e true g).mines = g.mines := by
  have hg := gainScore_ghost draw e.scoreValue g
  simp only [explodeEnemy, eq_self_iff_true, if_true]
  split_ifs <;> exact ⟨by simp [hg.1], by simp [hg.2.1], by simp [hg.2.2]⟩

theorem blastStep_chars (dist : DistFn) (draw : ℕ → List Mission) (mx my : ℚ)
    (g : GameS) (acc : List Enemy) (e : Enemy) :
    (blastStep dist draw mx my (g, acc) e).2 = acc ++ [blastOne dist mx my e] ∧
    (blastStep dist draw mx my (g, acc) e).1.mineKillEvents =
      g.mineKillEvents + (if blastKills dist mx my e then 1 else 0) ∧
    (blastStep dist draw mx my (g, acc) e).1.mines = g.mines := by
  by_cases ha : e.alive = true
  · by_cases hd : dist mx my e.x e.y < 90 + e.radius
    · have hb1 : blastOne dist mx my e =
          e.takeDamage (65 - dist mx my e.x e.y * (35/100)) := by
        simp [blastOne, ha, hd]
      by_cases hk : e.health - (65 - dist mx my e.x e.y * (35/100)) ≤ 0
      · have hkt : blastKills dist mx my e = true := by
          simp [blastKills, ha, hd, hk]
        have hdead : (e.takeDamage (65 - dist mx my e.x e.y * (35/100))).alive = false := by
          simp [Enemy.takeDamage, hk]
        have hstep : blastStep dist draw mx my (g, acc) e =
            (explodeEnemy draw (e.takeDamage (65 - dist mx my e.x e.y * (35/100))) true g,
              acc ++ [e.takeDamage (65 - dist mx my e.x e.y * (35/100))]) := by
          simp [blastStep, ha, hd, hdead]
        have hgh := explodeEnemy_ghost draw
          (e.takeDamage (65 - dist mx my e.x e.y * (35/100))) g
        rw [hstep, hb1, hkt]
        exact ⟨rfl, by rw [hgh.1]; simp, hgh.2.2⟩
      · have hkf : blastKills dist mx my e = false := by
          simp [blastKills, hk]
        have hlive : (e.takeDamage (65 - dist mx my e.x e.y * (35/100))).alive = true := by
          simp [Enemy.takeDamage, hk, ha]
        have hstep : blastStep dist draw mx my (g, acc) e =
            (g, acc ++ [e.takeDamage (65 - dist mx my e.x e.y * (35/100))]) := by
          simp [blastStep, ha, hd, hlive]
        rw [hstep, hb1, hkf]
        exact ⟨rfl, by simp, rfl⟩
    · have hb1 : blastOne dist mx my e = e := by
        simp [blastOne, hd]
      have hkf : blastKills dist mx my e = false := by
        simp [blastKills, hd]
      have hstep : blastStep dist draw mx my (g, acc) e = (g, acc ++ [e]) := by
        simp [blastStep, ha, hd]
      rw [hstep, hb1, hkf]
      exact ⟨rfl, by simp, rfl⟩
  · have ha2 : e.alive = false := by
      simpa using ha
    have hb1 : blastOne dist mx my e = e := by
      simp [blastOne, ha2]
    have hkf : blastKills dist mx my e = false := by
      simp [blastKills, ha2]
    have hstep : blastStep dist draw mx my (g, acc) e = (g, acc ++ [e]) := by
      simp [blastStep, ha2]
    rw [hstep, hb1, hkf]
    exact ⟨rfl, by simp, rfl⟩

theorem blastFold (dist : DistFn) (draw : ℕ → List Mission) (mx my : ℚ)
    (es : List Enemy) : ∀ (g : GameS) (acc : List Enemy),
    (es.foldl (blastStep dist draw mx my) (g, acc)).2 =
      acc ++ es.map (blastOne dist mx my) ∧
    (es.foldl (blastStep dist draw mx my) (g, acc)).1.mineKillEvents =
      g.mineKillEvents + es.countP (blastKills dist mx my) ∧
    (es.foldl (blastStep dist draw mx my) (g, acc)).1.mines = g.mines := by
  induction es with
  | nil => intro g acc; simp
  | cons e es ih =>
    intro g acc
    have hc := blastStep_chars dist draw mx my g acc e
    have hsplit : blastStep dist draw mx my (g, acc) e =
        ((blastStep dist draw mx my (g, acc) e).1,
          acc ++ [blastOne dist mx my e]) := by
      rw [← hc.1]
    rw [List.foldl_cons, hsplit]
    obtain ⟨ih1, ih2, ih3⟩ :=
      ih (blastStep dist draw mx my (g, acc) e).1 (acc ++ [blastOne dist mx my e])
    refine ⟨?_, ?_, ?_⟩
    · rw [ih1]
      simp
    · rw [ih2, hc.2.1, List.countP_cons]
      by_cases hk : blastKills dist mx my e = true
      · simp [hk]
        omega
      · simp [hk]
    · rw [ih3, hc.2.2]

theorem mineBlast_chars (dist : DistFn) (draw : ℕ → List Mission) (mx my : ℚ)
    (g : GameS) :
    (mineBlast dist draw mx my g).enemies = g.enemies.map (blastOne dist mx my) ∧
    (mineBlast dist draw mx my g).mineKillEvents =
      g.mineKillEvents + g.enemies.countP (blastKills dist mx my) ∧
    (mineBlast dist draw mx my g).mines = g.mines := by
  obtain ⟨h1, h2, h3⟩ := blastFold dist draw mx my g.enemies g []
  simp only [mineBlast]
  exact ⟨by rw [h1]; simp, h2, h3⟩

theorem mineFold_unarmed (dist : DistFn) (draw : ℕ → List Mission)
    (l : List Mine) : ∀ (g : GameS) (acc : List Mine),
    (∀ mi ∈ l, 0 < mi.armTime) →
    l.foldl (mineStep dist draw) (g, acc) = (g, acc ++ l) := by
  induction l with
  | nil => intro g acc _; simp
  | cons m ms ih =>
    intro g acc h
    have hm : 0 < m.armTime := h m (List.mem_cons_self m ms)
    have hstep : mineStep dist draw (g, acc) m = (g, acc ++ [m]) := by
      simp [mineStep, hm]
    rw [List.foldl_cons, hstep, ih g (acc ++ [m]) (fun mi hmi => h mi (List.mem_cons_of_mem m hmi))]
    simp

theorem minePass_unarmed (dist : DistFn) (draw : ℕ → List Mission) (g : GameS)
    (h : ∀ mi ∈ g.mines, 0 < mi.armTime) : minePass dist draw g = g := by
  simp only [minePass]
  rw [mineFold_unarmed dist draw g.mines g [] h]
  simp

/-- C5: an unarmed mine (arm timer still positive) never detonates or deals
damage; an armed, live mine overlapping a live enemy is consumed and applies
the unclamped falloff damage `65 - 0.35 * d` to every live enemy at distance
`d < 90 +` that enemy's radius (not only the triggering one), and each enemy
killed by the blast is counted as exactly one mine-kill mission event. -/
theorem claim_C5 (dist : DistFn) (draw : ℕ → List Mission) (g : GameS) (m : Mine) :
    ((∀ mi ∈ g.mines, 0 < mi.armTime) → minePass dist draw g = g) ∧
    (g.mines = [m] → m.alive = true → m.armTime ≤ 0 →
      mineTrigger dist m g.enemies = true →
      (minePass dist draw g).mines = [{ m with alive := false }] ∧
      (minePass dist draw g).enemies = g.enemies.map (blastOne dist m.x m.y) ∧
      (minePass dist draw g).mineKillEvents =
        g.mineKillEvents + g.enemies.countP (blastKills dist m.x m.y)) ∧
    (∀ e : Enemy, e.alive = true → dist m.x m.y e.x e.y < 90 + e.radius →
      blastOne dist m.x m.y e =
        e.takeDamage (65 - dist m.x m.y e.x e.y * (35/100))) ∧
    (∀ e : Enemy, ¬(e.alive = true ∧ dist m.x m.y e.x e.y < 90 + e.radius) →
      blastOne dist m.x m.y e = e) := by
  refine ⟨minePass_unarmed dist draw g, ?_, ?_, ?_⟩
  · intro hm halive harm htrig
    have hstep : mineStep dist draw (g, []) m =
        (mineBlast dist draw m.x m.y g, [{ m with alive := false }]) := by
      have hna : ¬(¬m.alive = true ∨ m.armTime > 0) := by
        push_neg
        exact ⟨by simp [halive], harm⟩
      simp only [mineStep, if_neg hna, htrig, if_pos, List.nil_append]
    have hbc := mineBlast_chars dist draw m.x m.y g
    have hpass : minePass dist draw g =
        { mineBlast dist draw m.x m.y g with mines := [{ m with alive := false }] } := by
      simp only [minePass, hm, List.foldl_cons, List.foldl_nil, hstep]
    rw [hpass]
    exact ⟨rfl, hbc.1, hbc.2.1⟩
  · intro e ha hd
    simp [blastOne, ha, hd]
  · intro e hne
    simp only [blastOne]
    rw [if_neg]
    intro hc
    exact hne ⟨hc.1, hc.2⟩

/-- Witness for C5: the armed mine of `cGmine` 5 units from a full-health
drone detonates, is consumed, kills the drone (damage 63.25 against 20
health) and books exactly one mine-kill event. -/
theorem claim_C5_witness :
    cGmine.mines = [cMineArmed] ∧ cMineArmed.alive = true ∧
    cMineArmed.armTime ≤ 0 ∧ mineTrigger cDist cMineArmed cGmine.enemies = true ∧
    (minePass cDist cDraw cGmine).mines = [{ cMineArmed with alive := false }] ∧
    (minePass cDist cDraw cGmine).mineKillEvents = 1 := by
  have h1 : cGmine.mines = [cMineArmed] := rfl
  have h2 : cMineArmed.alive = true := rfl
  have h3 : cMineArmed.armTime ≤ 0 := by norm_num [cMineArmed, Mine.make]
  have h4 : mineTrigger cDist cMineArmed cGmine.enemies = true := by
    simp [mineTrigger, cDist, cGmine, cMineArmed, Mine.make, cG, Enemy.make,
      Enemy.typed, Enemy.base, jsRound]
    norm_num
  have h := (claim_C5 cDist cDraw cGmine cMineArmed).2.1 h1 h2 h3 h4
  refine ⟨h1, h2, h3, h4, h.1, ?_⟩
  rw [h.2.2]
  have hcount : cGmine.enemies.countP (blastKills cDist cMineArmed.x cMineArmed.y) = 1 := by
    simp [cGmine, cG, List.countP, List.countP.go, blastKills, cDist, Enemy.make,
      Enemy.typed, Enemy.base, jsRound, cMineArmed, Mine.make]
    norm_num
  rw [hcount]
  rfl

/-! ### Claim C7: temporal-burst time dilation -/

/-- C7: while a temporal burst is active (`temporalTime > 0`) a tick advances
enemy behavior, enemy projectiles, the wave clock and both spawn timers by
`dt * 0.5`, while the player update, player projectiles, mines and particle
timers advance by the undilated `dt` and the player's speed carries the 1.3
burst multiplier; with no burst active every subsystem advances by the same
`dt`.  The `timersStep` conjuncts tie the routing record to the modelled
tick. -/
theorem claim_C7 (temporalTime dt : ℚ) :
    (temporalTime > 0 →
      (tickDeltas temporalTime dt).enemies = dt * (1/2) ∧
      (tickDeltas temporalTime dt).enemyProjectiles = dt * (1/2) ∧
      (tickDeltas temporalTime dt).waveTime = dt * (1/2) ∧
      (tickDeltas temporalTime dt).spawnTimer = dt * (1/2) ∧
      (tickDeltas temporalTime dt).coreSpawnTimer = dt * (1/2) ∧
      (tickDeltas temporalTime dt).snakeUpdate = dt ∧
      (tickDeltas temporalTime dt).projectiles = dt ∧
      (tickDeltas temporalTime dt).mines = dt ∧
      (tickDeltas temporalTime dt).particles = dt) ∧
    (¬temporalTime > 0 →
      (tickDeltas temporalTime dt).enemies = dt ∧
      (tickDeltas temporalTime dt).enemyProjectiles = dt ∧
      (tickDeltas temporalTime dt).waveTime = dt ∧
      (tickDeltas temporalTime dt).spawnTimer = dt ∧
      (tickDeltas temporalTime dt).coreSpawnTimer = dt ∧
      (tickDeltas temporalTime dt).snakeUpdate = dt ∧
      (tickDeltas temporalTime dt).projectiles = dt ∧
      (tickDeltas temporalTime dt).mines = dt ∧
      (tickDeltas temporalTime dt).particles = dt) ∧
    (∀ s : Snake, s.temporalTime > 0 → ¬s.dashTime > 0 →
      s.currentSpeed = (s.baseSpeed + ((s.len : ℚ) - 18) * (35/100)) * (13/10)) ∧
    (∀ g : GameS, g.snake.temporalTime = temporalTime →
      (timersStep dt g).waveTime =
        g.waveTime + (tickDeltas temporalTime dt).waveTime ∧
      (timersStep dt g).spawnTimer =
        g.spawnTimer - (tickDeltas temporalTime dt).spawnTimer ∧
      (timersStep dt g).coreSpawnTimer =
        g.coreSpawnTimer - (tickDeltas temporalTime dt).coreSpawnTimer ∧
      (timersStep dt g).comboTimer =
        g.comboTimer - (tickDeltas temporalTime dt).comboTimer) := by
  refine ⟨?_, ?_, ?_, ?_⟩
  · intro h
    simp [tickDeltas, h]
  · intro h
    simp [tickDeltas, h]
  · intro s hs hd
    simp [Snake.currentSpeed, hs, hd]
  · intro g hg
    subst hg
    by_cases h : g.snake.temporalTime > 0
    · simp only [timersStep, tickDeltas, if_pos h]
      refine ⟨?_, ?_, ?_, ?_⟩ <;> (split_ifs <;> simp)
    · simp only [timersStep, tickDeltas, if_neg h]
      refine ⟨?_, ?_, ?_, ?_⟩ <;> (split_ifs <;> simp)

/-- Witness for C7 at `temporalTime = 1, dt = 1/25`: hostile deltas are 1/50,
player-side deltas 1/25, and a fresh burst-active snake moves at 170 * 1.3. -/
theorem claim_C7_witness :
    (tickDeltas 1 (1/25)).enemies = 1/50 ∧
    (tickDeltas 1 (1/25)).snakeUpdate = 1/25 ∧
    ({ Snake.make 0 0 with temporalTime := 22/10 }).currentSpeed = 221 := by
  have h := claim_C7 1 (1/25)
  have h1 := (h.1 (by norm_num)).1
  have h2 := (h.1 (by norm_num)).2.2.2.2.2.1
  have h3 := h.2.2.1 { Snake.make 0 0 with temporalTime := 22/10 }
    (by norm_num [Snake.make]) (by norm_num [Snake.make])
  refine ⟨by rw [h1]; norm_num, by rw [h2], ?_⟩
  rw [h3]
  norm_num [Snake.make]

/-! ### Claim C6: scoring and the level-up threshold -/

/-- C6: a scoring event with base value `p` adds `round(p * combo)` to the
score but the unmultiplied `p` to the experience; when the accumulated
experience stays below `450 + level * 170` nothing else changes, and when it
reaches the threshold the engine carries the surplus over (no reset to
zero), increments the level, clears the per-level damage flag, pays the sum
of the done missions' fixed rewards into the score, draws the fresh mission
set for the new level, permanently adds 6 max health, heals 18 capped at the
new maximum, and tops the shield up by 18 (clamped at 120). -/
theorem claim_C6 (draw : ℕ → List Mission) (p : ℚ) (g : GameS) :
    (¬g.xp + p ≥ 450 + (g.level : ℚ) * 170 →
      (gainScore draw p g).score = g.score + (jsRound (p * g.combo) : ℚ) ∧
      (gainScore draw p g).xp = g.xp + p ∧
      (gainScore draw p g).level = g.level ∧
      (gainScore draw p g).missions = g.missions ∧
      (gainScore draw p g).tookDamageThisLevel = g.tookDamageThisLevel ∧
      (gainScore draw p g).snake = g.snake) ∧
    (g.xp + p ≥ 450 + (g.level : ℚ) * 170 →
      (gainScore draw p g).xp = g.xp + p - (450 + (g.level : ℚ) * 170) ∧
      (gainScore draw p g).level = g.level + 1 ∧
      (gainScore draw p g).tookDamageThisLevel = false ∧
      (gainScore draw p g).score =
        g.score + (jsRound (p * g.combo) : ℚ) + rewardScore g.missions ∧
      (gainScore draw p g).missions =
        startLevel (draw (g.level + 1)) (g.level + 1) ∧
      (gainScore draw p g).snake.maxHealth = g.snake.maxHealth + 6 ∧
      (gainScore draw p g).snake.health =
        min (g.snake.maxHealth + 6) (g.snake.health + 18) ∧
      (gainScore draw p g).snake.shield = clamp (g.snake.shield + 18) 0 120) := by
  constructor
  · intro h
    simp only [gainScore]
    split_ifs
    exact ⟨rfl, rfl, rfl, rfl, rfl, rfl⟩
  · intro h
    simp only [gainScore]
    split_ifs
    refine ⟨rfl, rfl, rfl, rfl, rfl, ?_, ?_, ?_⟩
    · simp [Snake.addShield]
    · simp [Snake.addShield]
    · simp [Snake.addShield]

/-- Witness for C6 at both branches: from a fresh match a 45-point event at
combo 1 yields score 45 and xp 45 with no level-up; from `cG9` (xp 600,
level 1, combo 3) the same event crosses the 620 threshold, carrying 25
experience over, paying the (zero) mission reward and raising the caps. -/
theorem claim_C6_witness :
    (¬(cG.xp + 45 ≥ 450 + (cG.level : ℚ) * 170)) ∧
    (gainScore cDraw 45 cG).score = 45 ∧
    (gainScore cDraw 45 cG).xp = 45 ∧
    (cG9.xp + 45 ≥ 450 + (cG9.level : ℚ) * 170) ∧
    (gainScore cDraw 45 cG9).xp = 25 ∧
    (gainScore cDraw 45 cG9).level = 2 ∧
    (gainScore cDraw 45 cG9).snake.maxHealth = 106 := by
  have hno : ¬(cG.xp + 45 ≥ 450 + (cG.level : ℚ) * 170) := by
    norm_num [cG, startGame, resetState]
  have hyes : (cG9.xp + 45 ≥ 450 + (cG9.level : ℚ) * 170) := by
    norm_num [cG9, cG, startGame, resetState]
  have h1 := (claim_C6 cDraw 45 cG).1 hno
  have h2 := (claim_C6 cDraw 45 cG9).2 hyes
  refine ⟨hno, ?_, ?_, hyes, ?_, ?_, ?_⟩
  · rw [h1.1]
    norm_num [cG, startGame, resetState, jsRound]
  · rw [h1.2.1]
    norm_num [cG, startGame, resetState]
  · rw [h2.1]
    norm_num [cG9, cG, startGame, resetState]
  · rw [h2.2.1]
    norm_num [cG9, cG, startGame, resetState]
  · rw [h2.2.2.2.2.2.1]
    norm_num [cG9, cG, startGame, resetState, Snake.make]

/-! ### Monotonicity of combo tier and level across a tick -/

theorem foldl_mono {α β γ : Type} [Preorder γ] (f : β → α → β) (meas : β → γ)
    (h : ∀ b a, meas b ≤ meas (f b a)) (l : List α) :
    ∀ b, meas b ≤ meas (l.foldl f b) := by
  induction l with
  | nil => intro b; exact le_refl _
  | cons x xs ih =>
    intro b
    rw [List.foldl_cons]
    exact le_trans (h b x) (ih (f b x))

theorem gainScore_mono (draw : ℕ → List Mission) (p : ℚ) (g : GameS) :
    g.comboTier ≤ (gainScore draw p g).comboTier ∧
    g.level ≤ (gainScore draw p g).level := by
  simp only [gainScore]
  split_ifs with h
  · exact ⟨le_max_left _ _, Nat.le_succ _⟩
  · exact ⟨le_max_left _ _, le_refl _⟩

theorem explodeEnemy_mono (draw : ℕ → List Mission) (e : Enemy) (b : Bool)
    (g : GameS) :
    g.comboTier ≤ (explodeEnemy draw e b g).comboTier ∧
    g.level ≤ (explodeEnemy draw e b g).level := by
  have hg := gainScore_mono draw e.scoreValue g
  simp only [explodeEnemy]
  split_ifs <;> exact ⟨hg.1, hg.2⟩

theorem coreStep_mono (dist : DistFn) (draw : ℕ → List Mission) (g : GameS)
    (c : Core) :
    g.comboTier ≤ (coreStep dist draw g c).comboTier ∧
    g.level ≤ (coreStep dist draw g c).level := by
  simp only [coreStep]
  split_ifs with h
  · cases hk : c.kind
    · simpa [hk] using gainScore_mono draw c.value g
    · simpa [hk] using
        gainScore_mono draw (c.value + 10) { g with snake := g.snake.heal 15 }
    · simpa [hk] using
        gainScore_mono draw (c.value + 5) { g with snake := g.snake.addShield 20 }
  · exact ⟨le_refl _, le_refl _⟩

theorem projStep_mono (dist : DistFn) (draw : ℕ → List Mission)
    (acc : GameS × List Projectile) (p : Projectile) :
    acc.1.comboTier ≤ (projStep dist draw acc p).1.comboTier ∧
    acc.1.level ≤ (projStep dist draw acc p).1.level := by
  obtain ⟨g, ps⟩ := acc
  rcases hm : projHitEnemies dist p g.enemies with ⟨es, oe⟩
  cases oe with
  | none =>
    simp only [projStep, hm]
    split_ifs <;> exact ⟨le_refl _, le_refl _⟩
  | some hit =>
    simp only [projStep, hm]
    split_ifs <;>
      first
        | exact ⟨le_refl _, le_refl _⟩
        | simpa using explodeEnemy_mono draw hit false { g with enemies := es }

theorem blastStep_mono (dist : DistFn) (draw : ℕ → List Mission) (mx my : ℚ)
    (acc : GameS × List Enemy) (e : Enemy) :
    acc.1.comboTier ≤ (blastStep dist draw mx my acc e).1.comboTier ∧
    acc.1.level ≤ (blastStep dist draw mx my acc e).1.level := by
  simp only [blastStep]
  split_ifs with h1 h2 h3
  · exact ⟨le_refl _, le_refl _⟩
  · simpa using explodeEnemy_mono draw
      (e.takeDamage (65 - dist mx my e.x e.y * (35/100))) true acc.1
  · exact ⟨le_refl _, le_refl _⟩
  · exact ⟨le_refl _, le_refl _⟩

theorem mineBlast_mono (dist : DistFn) (draw : ℕ → List Mission) (mx my : ℚ)
    (g : GameS) :
    g.comboTier ≤ (mineBlast dist draw mx my g).comboTier ∧
    g.level ≤ (mineBlast dist draw mx my g).level := by
  simp only [mineBlast]
  constructor
  · exact foldl_mono _ (fun x => x.1.comboTier)
      (fun b a => (blastStep_mono dist draw mx my b a).1) g.enemies (g, [])
  · exact foldl_mono _ (fun x => x.1.level)
      (fun b a => (blastStep_mono dist draw mx my b a).2) g.enemies (g, [])

theorem mineStep_mono (dist : DistFn) (draw : ℕ → List Mission)
    (acc : GameS × List Mine) (m : Mine) :
    acc.1.comboTier ≤ (mineStep dist draw acc m).1.comboTier ∧
    acc.1.level ≤ (mineStep dist draw acc m).1.level := by
  simp only [mineStep]
  split_ifs with h1 h2
  · exact ⟨le_refl _, le_refl _⟩
  · simpa using mineBlast_mono dist draw m.x m.y acc.1
  · exact ⟨le_refl _, le_refl _⟩

theorem contactStep_keeps (dist : DistFn) (dt : ℚ) (g : GameS) (e : Enemy) :
    (contactStep dist dt g e).comboTier = g.comboTier ∧
    (contactStep dist dt g e).level = g.level ∧
    (contactStep dist dt g e).missions = g.missions := by
  simp only [contactStep]
  split_ifs <;> exact ⟨rfl, rfl, rfl⟩

theorem enemyProjStep_keeps (dist : DistFn) (acc : GameS × List Projectile)
    (p : Projectile) :
    (enemyProjStep dist acc p).1.comboTier = acc.1.comboTier ∧
    (enemyProjStep dist acc p).1.level = acc.1.level ∧
    (enemyProjStep dist acc p).1.missions = acc.1.missions := by
  simp only [enemyProjStep]
  split_ifs <;> exact ⟨rfl, rfl, rfl⟩

theorem foldl_eq_meas {α β γ : Type} (f : β → α → β) (meas : β → γ)
    (h : ∀ b a, meas (f b a) = meas b) (l : List α) :
    ∀ b, meas (l.foldl f b) = meas b := by
  induction l with
  | nil => intro b; rfl
  | cons x xs ih =>
    intro b
    rw [List.foldl_cons, ih (f b x), h]

theorem corePass_mono (dist : DistFn) (draw : ℕ → List Mission) (g : GameS) :
    g.comboTier ≤ (corePass dist draw g).comboTier ∧
    g.level ≤ (corePass dist draw g).level := by
  simp only [corePass]
  exact ⟨foldl_mono _ (fun x => x.comboTier)
      (fun b a => (coreStep_mono dist draw b a).1) g.cores g,
    foldl_mono _ (fun x => x.level)
      (fun b a => (coreStep_mono dist draw b a).2) g.cores g⟩

theorem projectilePass_mono (dist : DistFn) (draw : ℕ → List Mission) (g : GameS) :
    g.comboTier ≤ (projectilePass dist draw g).comboTier ∧
    g.level ≤ (projectilePass dist draw g).level := by
  simp only [projectilePass]
  exact ⟨foldl_mono _ (fun x => x.1.comboTier)
      (fun b a => (projStep_mono dist draw b a).1) g.projectiles (g, []),
    foldl_mono _ (fun x => x.1.level)
      (fun b a => (projStep_mono dist draw b a).2) g.projectiles (g, [])⟩

theorem minePass_mono (dist : DistFn) (draw : ℕ → List Mission) (g : GameS) :
    g.comboTier ≤ (minePass dist draw g).comboTier ∧
    g.level ≤ (minePass dist draw g).level := by
  simp only [minePass]
  exact ⟨foldl_mono _ (fun x => x.1.comboTier)
      (fun b a => (mineStep_mono dist draw b a).1) g.mines (g, []),
    foldl_mono _ (fun x => x.1.level)
      (fun b a => (mineStep_mono dist draw b a).2) g.mines (g, [])⟩

theorem contactPass_keeps (dist : DistFn) (dt : ℚ) (g : GameS) :
    (contactPass dist dt g).comboTier = g.comboTier ∧
    (contactPass dist dt g).level = g.level ∧
    (contactPass dist dt g).missions = g.missions := by
  simp only [contactPass]
  exact ⟨foldl_eq_meas _ (fun x => x.comboTier)
      (fun b a => (contactStep_keeps dist dt b a).1) g.enemies g,
    foldl_eq_meas _ (fun x => x.level)
      (fun b a => (contactStep_keeps dist dt b a).2.1) g.enemies g,
    foldl_eq_meas _ (fun x => x.missions)
      (fun b a => (contactStep_keeps dist dt b a).2.2) g.enemies g⟩

theorem enemyProjPass_keeps (dist : DistFn) (g : GameS) :
    (enemyProjPass dist g).comboTier = g.comboTier ∧
    (enemyProjPass dist g).level = g.level ∧
    (enemyProjPass dist g).missions = g.missions := by
  simp only [enemyProjPass]
  exact ⟨foldl_eq_meas _ (fun x => x.1.comboTier)
      (fun b a => (enemyProjStep_keeps dist b a).1) g.enemyProjectiles (g, []),
    foldl_eq_meas _ (fun x => x.1.level)
      (fun b a => (enemyProjStep_keeps dist b a).2.1) g.enemyProjectiles (g, []),
    foldl_eq_meas _ (fun x => x.1.missions)
      (fun b a => (enemyProjStep_keeps dist b a).2.2) g.enemyProjectiles (g, [])⟩

theorem handleCollisions_mono (dist : DistFn) (draw : ℕ → List Mission)
    (dt : ℚ) (g : GameS) :
    g.comboTier ≤ (handleCollisions dist draw dt g).comboTier ∧
    g.level ≤ (handleCollisions dist draw dt g).level := by
  simp only [handleCollisions, collisionFilters]
  constructor
  · refine le_trans (corePass_mono dist draw g).1 ?_
    refine le_trans (projectilePass_mono dist draw _).1 ?_
    refine le_trans (minePass_mono dist draw _).1 ?_
    refine le_trans (le_of_eq (contactPass_keeps dist dt _).1.symm) ?_
    exact le_of_eq (enemyProjPass_keeps dist _).1.symm
  · refine le_trans (corePass_mono dist draw g).2 ?_
    refine le_trans (projectilePass_mono dist draw _).2 ?_
    refine le_trans (minePass_mono dist draw _).2 ?_
    refine le_trans (le_of_eq (contactPass_keeps dist dt _).2.1.symm) ?_
    exact le_of_eq (enemyProjPass_keeps dist _).2.1.symm

theorem timersStep_keeps (dt : ℚ) (g : GameS) :
    (timersStep dt g).comboTier = g.comboTier ∧
    (timersStep dt g).level = g.level ∧
    (timersStep dt g).missions = g.missions ∧
    (timersStep dt g).tookDamageThisLevel = g.tookDamageThisLevel ∧
    (timersStep dt g).snake = g.snake ∧
    (timersStep dt g).status = g.status := by
  simp only [timersStep]
  split_ifs <;> exact ⟨rfl, rfl, rfl, rfl, rfl, rfl⟩

theorem snakeStep_keeps (inp : InputFlags) (nm : List Mine)
    (sh : List Projectile) (hp : ℚ × ℚ) (dt : ℚ) (g : GameS) :
    (snakeStep inp nm sh hp dt g).comboTier = g.comboTier ∧
    (snakeStep inp nm sh hp dt g).level = g.level ∧
    (snakeStep inp nm sh hp dt g).missions = g.missions ∧
    (snakeStep inp nm sh hp dt g).tookDamageThisLevel = g.tookDamageThisLevel ∧
    (snakeStep inp nm sh hp dt g).combo = g.combo ∧
    (snakeStep inp nm sh hp dt g).status = g.status ∧
    (snakeStep inp nm sh hp dt g).enemies = g.enemies := by
  simp only [snakeStep]
  split_ifs <;> exact ⟨rfl, rfl, rfl, rfl, rfl, rfl, rfl⟩

theorem spawnEnemy_keeps (roll x y : ℚ) (g : GameS) :
    (spawnEnemy roll x y g).comboTier = g.comboTier ∧
    (spawnEnemy roll x y g).level = g.level ∧
    (spawnEnemy roll x y g).missions = g.missions ∧
    (spawnEnemy roll x y g).tookDamageThisLevel = g.tookDamageThisLevel ∧
    (spawnEnemy roll x y g).combo = g.combo ∧
    (spawnEnemy roll x y g).snake = g.snake ∧
    (spawnEnemy roll x y g).status = g.status := by
  simp [spawnEnemy]

theorem spawnBlock_keeps (rolls : List (ℚ × ℚ × ℚ)) (jitter : ℚ) (g : GameS) :
    (spawnBlock rolls jitter g).comboTier = g.comboTier ∧
    (spawnBlock rolls jitter g).level = g.level ∧
    (spawnBlock rolls jitter g).missions = g.missions ∧
    (spawnBlock rolls jitter g).tookDamageThisLevel = g.tookDamageThisLevel ∧
    (spawnBlock rolls jitter g).combo = g.combo ∧
    (spawnBlock rolls jitter g).snake = g.snake ∧
    (spawnBlock rolls jitter g).status = g.status := by
  unfold spawnBlock
  split_ifs with h
  · refine ⟨?_, ?_, ?_, ?_, ?_, ?_, ?_⟩
    · exact foldl_eq_meas _ (fun x => x.comboTier)
        (fun (b : GameS) (a : ℚ × ℚ × ℚ) => (spawnEnemy_keeps a.1 a.2.1 a.2.2 b).1) _ _
    · exact foldl_eq_meas _ (fun x => x.level)
        (fun (b : GameS) (a : ℚ × ℚ × ℚ) => (spawnEnemy_keeps a.1 a.2.1 a.2.2 b).2.1) _ _
    · exact foldl_eq_meas _ (fun x => x.missions)
        (fun (b : GameS) (a : ℚ × ℚ × ℚ) => (spawnEnemy_keeps a.1 a.2.1 a.2.2 b).2.2.1) _ _
    · exact foldl_eq_meas _ (fun x => x.tookDamageThisLevel)
        (fun (b : GameS) (a : ℚ × ℚ × ℚ) => (spawnEnemy_keeps a.1 a.2.1 a.2.2 b).2.2.2.1) _ _
    · exact foldl_eq_meas _ (fun x => x.combo)
        (fun (b : GameS) (a : ℚ × ℚ × ℚ) => (spawnEnemy_keeps a.1 a.2.1 a.2.2 b).2.2.2.2.1) _ _
    · exact foldl_eq_meas _ (fun x => x.snake)
        (fun (b : GameS) (a : ℚ × ℚ × ℚ) => (spawnEnemy_keeps a.1 a.2.1 a.2.2 b).2.2.2.2.2.1) _ _
    · exact foldl_eq_meas _ (fun x => x.status)
        (fun (b : GameS) (a : ℚ × ℚ × ℚ) => (spawnEnemy_keeps a.1 a.2.1 a.2.2 b).2.2.2.2.2.2) _ _
  · exact ⟨rfl, rfl, rfl, rfl, rfl, rfl, rfl⟩

theorem coreSpawnBlock_keeps (nt : ℚ) (c : Core) (g : GameS) :
    (coreSpawnBlock nt c g).comboTier = g.comboTier ∧
    (coreSpawnBlock nt c g).level = g.level ∧
    (coreSpawnBlock nt c g).missions = g.missions ∧
    (coreSpawnBlock nt c g).tookDamageThisLevel = g.tookDamageThisLevel ∧
    (coreSpawnBlock nt c g).combo = g.combo ∧
    (coreSpawnBlock nt c g).snake = g.snake ∧
    (coreSpawnBlock nt c g).status = g.status ∧
    (coreSpawnBlock nt c g).enemies = g.enemies := by
  simp only [coreSpawnBlock]
  split_ifs <;> exact ⟨rfl, rfl, rfl, rfl, rfl, rfl, rfl, rfl⟩

theorem kinStep_keeps (o : TickOracles) (dt : ℚ) (g : GameS) :
    (kinStep o dt g).comboTier = g.comboTier ∧
    (kinStep o dt g).level = g.level ∧
    (kinStep o dt g).missions = g.missions ∧
    (kinStep o dt g).tookDamageThisLevel = g.tookDamageThisLevel ∧
    (kinStep o dt g).combo = g.combo ∧
    (kinStep o dt g).snake = g.snake ∧
    (kinStep o dt g).status = g.status :=
  ⟨rfl, rfl, rfl, rfl, rfl, rfl, rfl⟩

theorem missionStepG_keeps (dt : ℚ) (g : GameS) :
    (missionStepG dt g).comboTier = g.comboTier ∧
    (missionStepG dt g).level = g.level ∧
    (missionStepG dt g).tookDamageThisLevel = g.tookDamageThisLevel ∧
    (missionStepG dt g).combo = g.combo ∧
    (missionStepG dt g).snake = g.snake ∧
    (missionStepG dt g).status = g.status :=
  ⟨rfl, rfl, rfl, rfl, rfl, rfl⟩

theorem deathCheck_keeps (g : GameS) :
    (deathCheck g).comboTier = g.comboTier ∧
    (deathCheck g).level = g.level ∧
    (deathCheck g).missions = g.missions ∧
    (deathCheck g).tookDamageThisLevel = g.tookDamageThisLevel ∧
    (deathCheck g).combo = g.combo ∧
    (deathCheck g).snake = g.snake := by
  simp only [deathCheck]
  split_ifs <;> exact ⟨rfl, rfl, rfl, rfl, rfl, rfl⟩

theorem updateModel_mono (o : TickOracles) (dt : ℚ) (g : GameS) :
    g.comboTier ≤ (updateModel o dt g).comboTier ∧
    g.level ≤ (updateModel o dt g).level := by
  unfold updateModel
  split_ifs with hs
  · exact ⟨le_refl _, le_refl _⟩
  · set g1 := timersStep dt g
    set g2 := snakeStep o.inp o.newMines o.playerShots o.headPos dt g1
    set g3 := spawnBlock o.spawnRolls o.spawnJitter g2
    set g4 := coreSpawnBlock o.coreTimer o.newCore g3
    set g5 := kinStep o dt g4
    set g6 := handleCollisions o.dist o.draw dt g5
    have e5 : g5.comboTier = g.comboTier ∧ g5.level = g.level := by
      rw [(kinStep_keeps o dt g4).1, (coreSpawnBlock_keeps _ _ g3).1,
        (spawnBlock_keeps _ _ g2).1, (snakeStep_keeps _ _ _ _ dt g1).1,
        (timersStep_keeps dt g).1,
        (kinStep_keeps o dt g4).2.1, (coreSpawnBlock_keeps _ _ g3).2.1,
        (spawnBlock_keeps _ _ g2).2.1, (snakeStep_keeps _ _ _ _ dt g1).2.1,
        (timersStep_keeps dt g).2.1]
      exact ⟨rfl, rfl⟩
    have h6 := handleCollisions_mono o.dist o.draw dt g5
    constructor
    · rw [(deathCheck_keeps _).1, (missionStepG_keeps dt g6).1]
      exact le_trans (le_of_eq e5.1.symm) h6.1
    · rw [(deathCheck_keeps _).2.1, (missionStepG_keeps dt g6).2.1]
      exact le_trans (le_of_eq e5.2.symm) h6.2

/-! ### Claim C9: combo tier bookkeeping -/

/-- C9 counterexample: from `cG9` (combo tier 3, level 1, one event short of
the threshold) a 45-point event starts level 2 yet leaves the combo tier at
3 — the tier does not restart from its base value when a new level begins. -/
theorem claim_C9_counterexample :
    cG9.comboTier = 3 ∧ cG9.level = 1 ∧
    (gainScore cDraw 45 cG9).level = 2 ∧
    (gainScore cDraw 45 cG9).comboTier = 3 ∧
    ¬(gainScore cDraw 45 cG9).comboTier = 1 := by
  have hfloor : jsFloor (clamp ((3 : ℚ) + 5/100) 1 6) = 3 := by
    have h1 : clamp ((3 : ℚ) + 5/100) 1 6 = 61/20 := by
      norm_num [clamp]
    rw [h1]
    norm_num [jsFloor]
  have hlvl : (gainScore cDraw 45 cG9).level = 2 := by
    have h := (claim_C6 cDraw 45 cG9).2
      (by norm_num [cG9, cG, startGame, resetState])
    rw [h.2.1]
    norm_num [cG9, cG, startGame, resetState]
  have htier : (gainScore cDraw 45 cG9).comboTier = 3 := by
    simp only [gainScore]
    split_ifs <;>
      simp [cG9, cG, startGame, resetState, hfloor]
  refine ⟨rfl, rfl, hlvl, htier, by rw [htier]; norm_num⟩

/-- C9 (amended): the combo tier is recomputed as the high-water mark
`max(comboTier, floor(combo))` (with the post-increment combo) on every
scoring event, never decreases across a scoring event or a whole tick, and
is reset to its base value 1 only by a full match reset — it does not
restart when a new level begins. -/
theorem claim_C9 (draw : ℕ → List Mission) (p : ℚ) (g : GameS) (hx hy : ℚ)
    (st : GStatus) :
    (gainScore draw p g).comboTier =
      max g.comboTier (jsFloor (clamp (g.combo + 5/100) 1 6)) ∧
    g.comboTier ≤ (gainScore draw p g).comboTier ∧
    (resetState draw hx hy st).comboTier = 1 ∧
    (∀ (o : TickOracles) (dt : ℚ), g.comboTier ≤ (updateModel o dt g).comboTier) := by
  refine ⟨?_, (gainScore_mono draw p g).1, rfl,
    fun o dt => (updateModel_mono o dt g).1⟩
  simp only [gainScore]
  split_ifs <;> rfl

/-! ### Mission invariant lemmas -/

theorem pool_MInv (m : Mission) (hm : m ∈ missionPool) (took : Bool) :
    MInv took m := by
  simp only [missionPool, List.mem_cons, List.not_mem_nil, or_false] at hm
  rcases hm with rfl | rfl | rfl | rfl | rfl
  · exact ⟨rfl, rfl, ⟨0, rfl⟩, ⟨6, by norm_num [Mission.make]⟩,
      by norm_num [Mission.make], fun _ => by norm_num [Mission.make]⟩
  · exact ⟨rfl, rfl, ⟨0, rfl⟩, ⟨8, by norm_num [Mission.make]⟩,
      by norm_num [Mission.make], fun _ => by norm_num [Mission.make]⟩
  · refine ⟨rfl, rfl, ⟨30, rfl⟩, by norm_num [Mission.make],
      by norm_num [Mission.make], ?_, ?_⟩
    · intro h
      exact absurd h (by norm_num [Mission.make])
    · intro h
      exact absurd h (by norm_num [Mission.make])
  · exact ⟨rfl, rfl, ⟨0, rfl⟩, ⟨5, by norm_num [Mission.make]⟩,
      by norm_num [Mission.make], fun _ => by norm_num [Mission.make]⟩
  · exact ⟨rfl, rfl, rfl, rfl, by norm_num [Mission.make],
      by norm_num [Mission.make]⟩

theorem startLevel_mem (bag : List Mission) (lvl : ℕ) (m : Mission)
    (hm : m ∈ startLevel bag lvl) : m ∈ bag :=
  List.take_subset _ _ hm

theorem MInv_true_of (took : Bool) (m : Mission) (h : MInv took m) :
    MInv true m := by
  unfold MInv at h ⊢
  rcases ht : m.mtype with _ | _ | _ | _ | _ <;> rw [ht] at h <;> simp_all

theorem inc_MInv (took : Bool) (m : Mission) (t : MType)
    (ht : t = .runnerKills ∨ t = .coreCollect ∨ t = .mineKills)
    (h : MInv took m) :
    MInv took (if m.mtype = t then m.inc 1 else m) := by
  by_cases he : m.mtype = t
  · rw [if_pos he]
    by_cases hterm : m.done = true ∨ m.failed = true
    · have : m.inc 1 = m := by
        unfold Mission.inc
        rw [if_pos (by rcases hterm with h1 | h1 <;> simp [h1])]
      rw [this]
      exact h
    · push_neg at hterm
      have hdone : m.done = false := by
        simpa using hterm.1
      have hfail : m.failed = false := by
        simpa using hterm.2
      have hev : m.mtype = .runnerKills ∨ m.mtype = .coreCollect ∨ m.mtype = .mineKills := by
        rcases ht with rfl | rfl | rfl <;> simp [he]
      unfold MInv at h
      have h2 : m.timer = none ∧ m.failed = false ∧
          (∃ n : ℕ, m.progress = (n : ℚ)) ∧ (∃ k : ℕ, m.target = (k : ℚ)) ∧
          m.progress ≤ m.target ∧ (m.done = false → m.progress < m.target) := by
        rcases hev with h3 | h3 | h3 <;> rw [h3] at h <;> exact h
      obtain ⟨htm, hfl, ⟨n, hn⟩, ⟨k, hk⟩, hle, hlt⟩ := h2
      have hlt2 : m.progress < m.target := hlt hdone
      have hnk : n < k := by
        rw [hn, hk] at hlt2
        exact_mod_cast hlt2
      have hinc : m.inc 1 = { m with progress := m.progress + 1, done := if m.progress + 1 ≥ m.target then true else m.done } := by
        unfold Mission.inc
        rw [if_neg (by simp [hdone, hfail])]
      rw [hinc]
      unfold MInv
      have hmt : ({ m with progress := m.progress + 1, done := if m.progress + 1 ≥ m.target then true else m.done } : Mission).mtype = m.mtype := rfl
      have hple : m.progress + 1 ≤ m.target := by
        rw [hn, hk]
        exact_mod_cast Nat.succ_le_of_lt hnk
      have hdlt : (if m.progress + 1 ≥ m.target then true else m.done) = false →
          m.progress + 1 < m.target := by
        intro hd
        split_ifs at hd with hge
        push_neg at hge
        exact hge
      rcases hev with h3 | h3 | h3 <;> rw [hmt, h3] <;>
        exact ⟨htm, hfl, ⟨n + 1, by rw [hn]; push_cast; ring⟩, ⟨k, hk⟩, hple, hdlt⟩
  · rw [if_neg he]
    exact h

theorem missionsOnEvent_MInv (took : Bool) (t : MType)
    (ht : t = .runnerKills ∨ t = .coreCollect ∨ t = .mineKills)
    (ms : List Mission) (h : ∀ m ∈ ms, MInv took m) :
    ∀ m ∈ missionsOnEvent t 1 ms, MInv took m := by
  intro m hm
  unfold missionsOnEvent at hm
  obtain ⟨m0, hm0, rfl⟩ := List.mem_map.mp hm
  exact inc_MInv took m0 t ht (h m0 hm0)

theorem clamp30_big (v : ℚ) (h : 30 ≤ v) : clamp v 0 30 = 30 := by
  unfold clamp
  rw [min_eq_left h]
  norm_num

theorem clamp30_ge (v : ℚ) (h : (30:ℚ) ≤ clamp v 0 30) : 30 ≤ v := by
  unfold clamp at h
  rcases le_total v 30 with hv | hv
  · rw [min_eq_right hv] at h
    rcases max_cases 0 v with ⟨he, _⟩ | ⟨he, _⟩ <;> rw [he] at h <;> linarith
  · exact hv

theorem Mission.update_none (m : Mission) (dt : ℚ) (h : m.timer = none) :
    m.update dt = m := by
  unfold Mission.update
  rw [h]
  split_ifs <;> rfl

theorem MInv_noHit_intro (took : Bool) (m : Mission)
    (hmt : m.mtype = .secondsNoHit) (h30 : m.target = 30)
    (hmx : m.maxTimer = some 30) (t : ℚ) (htm : m.timer = some t)
    (hp0 : 0 ≤ m.progress) (hp30 : m.progress ≤ 30)
    (hdone : m.done = true → m.progress = 30 ∧ t ≤ 0)
    (hfail : m.failed = true → m.done = true ∨ took = true) : MInv took m := by
  unfold MInv
  rw [hmt]
  refine ⟨h30, hmx, ⟨t, htm⟩, hp0, hp30, ?_, hfail⟩
  intro hd
  refine ⟨(hdone hd).1, ?_⟩
  intro t2 ht2
  rw [htm] at ht2
  have : t = t2 := by injection ht2
  rw [← this]
  exact (hdone hd).2

theorem MInv_noHit_elim (took : Bool) (m : Mission)
    (hmt : m.mtype = .secondsNoHit) (h : MInv took m) :
    m.target = 30 ∧ m.maxTimer = some 30 ∧ (∃ t : ℚ, m.timer = some t) ∧
    0 ≤ m.progress ∧ m.progress ≤ 30 ∧
    (m.done = true → m.progress = 30 ∧ ∀ t, m.timer = some t → t ≤ 0) ∧
    (m.failed = true → m.done = true ∨ took = true) := by
  unfold MInv at h
  rw [hmt] at h
  exact h

theorem MInv_comboPeak_elim (took : Bool) (m : Mission)
    (hmt : m.mtype = .comboPeak) (h : MInv took m) :
    m.target = 10 ∧ m.timer = none ∧ m.done = false ∧ m.failed = false ∧
    0 ≤ m.progress ∧ m.progress ≤ 6 := by
  unfold MInv at h
  rw [hmt] at h
  exact h

theorem MInv_comboPeak_intro (took : Bool) (m : Mission)
    (hmt : m.mtype = .comboPeak) (h10 : m.target = 10) (htm : m.timer = none)
    (hd : m.done = false) (hf : m.failed = false) (hp0 : 0 ≤ m.progress)
    (hp6 : m.progress ≤ 6) : MInv took m := by
  unfold MInv
  rw [hmt]
  exact ⟨h10, htm, hd, hf, hp0, hp6⟩

theorem MInv_event_elim (took : Bool) (m : Mission)
    (hmt : m.mtype = .runnerKills ∨ m.mtype = .coreCollect ∨ m.mtype = .mineKills)
    (h : MInv took m) :
    m.timer = none ∧ m.failed = false ∧
    (∃ n : ℕ, m.progress = (n : ℚ)) ∧ (∃ k : ℕ, m.target = (k : ℚ)) ∧
    m.progress ≤ m.target ∧ (m.done = false → m.progress < m.target) := by
  unfold MInv at h
  rcases hmt with h3 | h3 | h3 <;> rw [h3] at h <;> exact h

theorem MInv_event_intro (took : Bool) (m : Mission)
    (hmt : m.mtype = .runnerKills ∨ m.mtype = .coreCollect ∨ m.mtype = .mineKills)
    (h1 : m.timer = none) (h2 : m.failed = false)
    (h3 : ∃ n : ℕ, m.progress = (n : ℚ)) (h4 : ∃ k : ℕ, m.target = (k : ℚ))
    (h5 : m.progress ≤ m.target) (h6 : m.done = false → m.progress < m.target) :
    MInv took m := by
  unfold MInv
  rcases hmt with hh | hh | hh <;> rw [hh] <;> exact ⟨h1, h2, h3, h4, h5, h6⟩

theorem Mission.update_term (m : Mission) (dt : ℚ)
    (h : m.done = true ∨ m.failed = true) : m.update dt = m := by
  unfold Mission.update
  rw [if_pos (by rcases h with h | h <;> simp [h])]

theorem Mission.update_active (m : Mission) (dt t : ℚ) (htm : m.timer = some t)
    (hd : m.done = false) (hf : m.failed = false) :
    m.update dt = if t - dt ≤ 0 ∧ m.progress < m.target then { m with timer := some (t - dt), failed := true } else { m with timer := some (t - dt) } := by
  unfold Mission.update
  rw [if_neg (by simp [hd, hf]), htm]

theorem missionTick_MInv (dt : ℚ) (took : Bool) (tier : ℤ) (h1t : 1 ≤ tier)
    (h6t : tier ≤ 6) (m : Mission) (h : MInv took m) :
    MInv took (missionTick dt took tier m) := by
  rcases hmt : m.mtype with _ | _ | _ | _ | _
  case runnerKills =>
    obtain ⟨htm, _, _, _, _, _⟩ := MInv_event_elim took m (Or.inl hmt) h
    have hupd := Mission.update_none m dt htm
    have heq : missionTick dt took tier m = m := by
      simp [missionTick, hupd, hmt]
    rw [heq]
    exact h
  case coreCollect =>
    obtain ⟨htm, _, _, _, _, _⟩ := MInv_event_elim took m (Or.inr (Or.inl hmt)) h
    have hupd := Mission.update_none m dt htm
    have heq : missionTick dt took tier m = m := by
      simp [missionTick, hupd, hmt]
    rw [heq]
    exact h
  case mineKills =>
    obtain ⟨htm, _, _, _, _, _⟩ := MInv_event_elim took m (Or.inr (Or.inr hmt)) h
    have hupd := Mission.update_none m dt htm
    have heq : missionTick dt took tier m = m := by
      simp [missionTick, hupd, hmt]
    rw [heq]
    exact h
  case comboPeak =>
    obtain ⟨h10, htm, hd, hf, hp0, hp6⟩ := MInv_comboPeak_elim took m hmt h
    have hupd := Mission.update_none m dt htm
    have hmax6 : max m.progress ((tier : ℚ)) ≤ 6 := by
      refine max_le hp6 ?_
      exact_mod_cast h6t
    have hnot : ¬max m.progress ((tier : ℚ)) ≥ m.target := by
      rw [h10]
      intro hc
      linarith
    have heq : missionTick dt took tier m = { m with progress := max m.progress ((tier : ℚ)), done := m.done } := by
      simp [missionTick, hupd, hmt, hnot]
    rw [heq]
    refine MInv_comboPeak_intro took _ hmt h10 htm hd hf ?_ ?_
    · exact le_trans hp0 (le_max_left _ _)
    · exact hmax6
  case secondsNoHit =>
    obtain ⟨h30, hmx, ⟨t, htm⟩, hp0, hp30, hdone, hfail⟩ :=
      MInv_noHit_elim took m hmt h
    by_cases hdn : m.done = true
    · have hupd := Mission.update_term m dt (Or.inl hdn)
      by_cases htk : took = true
      · have heq : missionTick dt took tier m = m := by
          simp [missionTick, hupd, hmt, htk]
        rw [heq]
        exact h
      · obtain ⟨hp30eq, ht0all⟩ := hdone hdn
        have ht0 : t ≤ 0 := ht0all t htm
        have hclamp : clamp (30 - t) 0 m.target = 30 := by
          rw [h30]
          exact clamp30_big _ (by linarith)
        have heq : missionTick dt took tier m = { m with progress := clamp (30 - t) 0 m.target, done := if clamp (30 - t) 0 m.target ≥ m.target then true else m.done } := by
          simp [missionTick, hupd, hmt, htk, hmx, htm]
        rw [heq]
        refine MInv_noHit_intro took _ hmt h30 hmx t htm ?_ ?_ ?_ ?_
        · rw [hclamp]
          norm_num
        · rw [hclamp, h30]
        · intro _
          exact ⟨by rw [hclamp, h30], ht0⟩
        · intro _
          left
          show (if clamp (30 - t) 0 m.target ≥ m.target then true else m.done) = true
          rw [hclamp, h30]
          simp
    · have hdnf : m.done = false := by simpa using hdn
      by_cases hfl : m.failed = true
      · have htk : took = true := by
          rcases hfail hfl with hc | hc
          · rw [hdnf] at hc
            exact absurd hc (by simp)
          · exact hc
        have hupd := Mission.update_term m dt (Or.inr hfl)
        have heq : missionTick dt took tier m = m := by
          simp [missionTick, hupd, hmt, htk]
        rw [heq]
        exact h
      · have hflf : m.failed = false := by simpa using hfl
        have hupd := Mission.update_active m dt t htm hdnf hflf
        by_cases hc : t - dt ≤ 0 ∧ m.progress < m.target
        · have hupd2 : m.update dt = { m with timer := some (t - dt), failed := true } := by
            rw [hupd, if_pos hc]
          by_cases htk : took = true
          · have heq : missionTick dt took tier m = { m with timer := some (t - dt), failed := true } := by
              simp [missionTick, hupd2, hmt, htk]
            rw [heq]
            refine MInv_noHit_intro took _ hmt h30 hmx (t - dt) rfl hp0 hp30 ?_ ?_
            · intro hdd
              exact absurd hdd (by simp [hdnf])
            · intro _
              exact Or.inr htk
          · have hclamp : clamp (30 - (t - dt)) 0 m.target = 30 := by
              rw [h30]
              exact clamp30_big _ (by linarith [hc.1])
            have hge : clamp (30 - (t - dt)) 0 m.target ≥ m.target := by
              rw [hclamp, h30]
            have heq : missionTick dt took tier m = { m with timer := some (t - dt), failed := true, progress := clamp (30 - (t - dt)) 0 m.target, done := true } := by
              simp [missionTick, hupd2, hmt, htk, hmx, hge]
            rw [heq]
            refine MInv_noHit_intro took _ hmt h30 hmx (t - dt) rfl ?_ ?_ ?_ ?_
            · rw [hclamp]
              norm_num
            · rw [hclamp, h30]
            · intro _
              exact ⟨by rw [hclamp, h30], hc.1⟩
            · intro _
              exact Or.inl rfl
        · have hupd2 : m.update dt = { m with timer := some (t - dt) } := by
            rw [hupd, if_neg hc]
          by_cases htk : took = true
          · have heq : missionTick dt took tier m = { m with timer := some (t - dt) } := by
              simp [missionTick, hupd2, hmt, htk]
            rw [heq]
            exact MInv_noHit_intro took _ hmt h30 hmx (t - dt) rfl hp0 hp30
              (fun hdd => absurd hdd (by simp [hdnf]))
              (fun hff => absurd hff (by simp [hflf]))
          · have hcl0 : 0 ≤ clamp (30 - (t - dt)) 0 m.target := clamp_lo_le _ _ _
            have hcl30 : clamp (30 - (t - dt)) 0 m.target ≤ 30 := by
              rw [h30]
              exact clamp_le_hi _ _ _ (by norm_num)
            have heq : missionTick dt took tier m = { m with timer := some (t - dt), progress := clamp (30 - (t - dt)) 0 m.target, done := if clamp (30 - (t - dt)) 0 m.target ≥ m.target then true else m.done } := by
              simp [missionTick, hupd2, hmt, htk, hmx]
            rw [heq]
            refine MInv_noHit_intro took _ hmt h30 hmx (t - dt) rfl hcl0 hcl30 ?_ ?_
            · intro hdd
              simp only [] at hdd
              split_ifs at hdd with hge2
              · rw [h30] at hge2
                have h30le : (30:ℚ) ≤ 30 - (t - dt) := clamp30_ge _ hge2
                constructor
                · show clamp (30 - (t - dt)) 0 m.target = 30
                  rw [h30]
                  exact clamp30_big _ h30le
                · linarith
              · exact absurd hdd (by simp [hdnf])
            · intro hff
              exact absurd hff (by simp [hflf])

/-! ### Boss-count lemmas -/

theorem foldl_pres {α β : Type} (f : β → α → β) (P : β → Prop)
    (h : ∀ b a, P b → P (f b a)) (l : List α) : ∀ b, P b → P (l.foldl f b) := by
  induction l with
  | nil => intro b hb; exact hb
  | cons x xs ih =>
    intro b hb
    rw [List.foldl_cons]
    exact ih (f b x) (h b x hb)

theorem takeDamage_etype (e : Enemy) (a : ℚ) : (e.takeDamage a).etype = e.etype := rfl

theorem blastOne_etype (dist : DistFn) (mx my : ℚ) (e : Enemy) :
    (blastOne dist mx my e).etype = e.etype := by
  unfold blastOne
  split_ifs <;> rfl

theorem bossCount_map_blast (dist : DistFn) (mx my : ℚ) (es : List Enemy) :
    bossCount (es.map (blastOne dist mx my)) = bossCount es := by
  unfold bossCount
  rw [List.countP_map]
  refine List.countP_congr ?_
  intro e _
  simp [Function.comp, blastOne_etype]

theorem projHitEnemies_bossCount (dist : DistFn) (p : Projectile) :
    ∀ es : List Enemy, bossCount (projHitEnemies dist p es).1 = bossCount es := by
  intro es
  induction es with
  | nil => rfl
  | cons e rest ih =>
    unfold projHitEnemies
    split_ifs with hc
    · simp only [bossCount, List.countP_cons]
      rfl
    · simp only [bossCount, List.countP_cons] at ih ⊢
      rw [ih]

theorem bossCount_filter_le (p : Enemy → Bool) (es : List Enemy) :
    bossCount (es.filter p) ≤ bossCount es :=
  List.Sublist.countP_le _ (List.filter_sublist es)

theorem Enemy.make_etype (t : EType) (x y sc : ℚ) : (Enemy.make t x y sc).etype = t := by
  unfold Enemy.make Enemy.typed Enemy.base
  cases t <;> rfl

theorem rollType_ne_boss (roll : ℚ) : rollType roll ≠ EType.boss := by
  unfold rollType
  split_ifs <;> simp

theorem hasBoss_false_count (es : List Enemy) (h : hasBoss es = false) :
    bossCount es = 0 := by
  unfold hasBoss at h
  unfold bossCount
  rw [List.countP_eq_zero]
  intro e he
  have := List.any_eq_false.mp h e he
  simpa using this

theorem bossCount_append_one (es : List Enemy) (e : Enemy) :
    bossCount (es ++ [e]) =
      bossCount es + (if e.etype = EType.boss then 1 else 0) := by
  unfold bossCount
  rw [List.countP_append]
  simp [List.countP_cons]

theorem spawnEnemy_bossCount (roll x y : ℚ) (g : GameS)
    (h : bossCount g.enemies ≤ 1) :
    bossCount (spawnEnemy roll x y g).enemies ≤ 1 := by
  simp only [spawnEnemy]
  by_cases hb : g.level % 4 = 0 ∧ ¬hasBoss g.enemies = true
  · rw [if_pos hb]
    have h0 : bossCount g.enemies = 0 :=
      hasBoss_false_count _ (by simpa using hb.2)
    simp only [bossCount_append_one]
    rw [Enemy.make_etype]
    unfold bossCount at h0
    simp [bossCount, h0]
  · rw [if_neg hb]
    simp only [bossCount_append_one]
    rw [Enemy.make_etype]
    rw [if_neg (rollType_ne_boss roll)]
    simpa using h

theorem forall2_bossCount (es bs : List Enemy)
    (h : List.Forall₂ EnemyKin es bs) : bossCount bs = bossCount es := by
  induction h with
  | nil => rfl
  | cons hab _ ih =>
    simp only [bossCount, List.countP_cons] at ih ⊢
    rw [ih]
    have hbe : _ = _ := hab
    rw [hbe]

/-! ### Invariant preservation across the tick -/

theorem gainScore_GInv (draw : ℕ → List Mission) (p : ℚ) (g : GameS)
    (hd : ValidDraw draw) (h : GInv g) : GInv (gainScore draw p g) := by
  obtain ⟨hc1, hc6, ht1, ht6, hms, hbc⟩ := h
  have hcombo1 : (1:ℚ) ≤ clamp (g.combo + 5/100) 1 6 := clamp_lo_le _ _ _
  have hcombo6 : clamp (g.combo + 5/100) 1 6 ≤ 6 := clamp_le_hi _ _ _ (by norm_num)
  have htier1 : 1 ≤ max g.comboTier (jsFloor (clamp (g.combo + 5/100) 1 6)) :=
    le_trans ht1 (le_max_left _ _)
  have htier6 : max g.comboTier (jsFloor (clamp (g.combo + 5/100) 1 6)) ≤ 6 :=
    max_le ht6 (jsFloor_le_six _ hcombo6)
  simp only [gainScore]
  split_ifs with hlvl
  · refine ⟨hcombo1, hcombo6, htier1, htier6, ?_, hbc⟩
    intro m hm
    exact pool_MInv m (hd _ m (startLevel_mem _ _ m hm)) false
  · exact ⟨hcombo1, hcombo6, htier1, htier6, hms, hbc⟩

theorem explodeEnemy_GInv (draw : ℕ → List Mission) (e : Enemy) (b : Bool)
    (g : GameS) (hd : ValidDraw draw) (h : GInv g) :
    GInv (explodeEnemy draw e b g) := by
  have h1 := gainScore_GInv draw e.scoreValue g hd h
  obtain ⟨hc1, hc6, ht1, ht6, hms, hbc⟩ := h1
  simp only [explodeEnemy]
  split_ifs <;>
    refine ⟨hc1, hc6, ht1, ht6, ?_, hbc⟩ <;>
    first
      | exact hms
      | exact missionsOnEvent_MInv _ _ (Or.inl rfl) _ hms
      | exact missionsOnEvent_MInv _ _ (Or.inr (Or.inr rfl)) _ hms
      | exact missionsOnEvent_MInv _ _ (Or.inr (Or.inr rfl)) _
          (missionsOnEvent_MInv _ _ (Or.inl rfl) _ hms)

theorem coreStep_GInv (dist : DistFn) (draw : ℕ → List Mission) (g : GameS)
    (c : Core) (hd : ValidDraw draw) (h : GInv g) :
    GInv (coreStep dist draw g c) := by
  have hheal : GInv { g with snake := g.snake.heal 15 } := h
  have hsh : GInv { g with snake := g.snake.addShield 20 } := h
  simp only [coreStep]
  split_ifs with hc
  · cases hk : c.kind
    · simp only [hk]
      obtain ⟨h1, h2, h3, h4, h5, h6⟩ := gainScore_GInv draw c.value g hd h
      exact ⟨h1, h2, h3, h4,
        missionsOnEvent_MInv _ _ (Or.inr (Or.inl rfl)) _ h5, h6⟩
    · simp only [hk]
      obtain ⟨h1, h2, h3, h4, h5, h6⟩ :=
        gainScore_GInv draw (c.value + 10) { g with snake := g.snake.heal 15 } hd hheal
      exact ⟨h1, h2, h3, h4,
        missionsOnEvent_MInv _ _ (Or.inr (Or.inl rfl)) _ h5, h6⟩
    · simp only [hk]
      obtain ⟨h1, h2, h3, h4, h5, h6⟩ :=
        gainScore_GInv draw (c.value + 5) { g with snake := g.snake.addShield 20 } hd hsh
      exact ⟨h1, h2, h3, h4,
        missionsOnEvent_MInv _ _ (Or.inr (Or.inl rfl)) _ h5, h6⟩
  · exact h

theorem corePass_GInv (dist : DistFn) (draw : ℕ → List Mission) (g : GameS)
    (hd : ValidDraw draw) (h : GInv g) : GInv (corePass dist draw g) := by
  simp only [corePass]
  exact foldl_pres _ GInv (fun b a hb => coreStep_GInv dist draw b a hd hb) g.cores g h

theorem projStep_GInv (dist : DistFn) (draw : ℕ → List Mission)
    (acc : GameS × List Projectile) (p : Projectile) (hd : ValidDraw draw)
    (h : GInv acc.1) : GInv (projStep dist draw acc p).1 := by
  obtain ⟨g, ps⟩ := acc
  rcases hm : projHitEnemies dist p g.enemies with ⟨es, oe⟩
  have hbc2 : bossCount es = bossCount g.enemies := by
    have := projHitEnemies_bossCount dist p g.enemies
    rw [hm] at this
    exact this
  obtain ⟨h1, h2, h3, h4, h5, h6⟩ := h
  have hGes : GInv { g with enemies := es } :=
    ⟨h1, h2, h3, h4, h5, by show bossCount es ≤ 1; rw [hbc2]; exact h6⟩
  cases oe with
  | none =>
    simp only [projStep, hm]
    split_ifs <;>
      first
        | exact ⟨h1, h2, h3, h4, h5, h6⟩
        | exact hGes
  | some hit =>
    simp only [projStep, hm]
    split_ifs with c1 c2
    · exact hGes
    · exact explodeEnemy_GInv draw hit false _ hd hGes
    · exact ⟨h1, h2, h3, h4, h5, h6⟩

theorem blastStep_GInv (dist : DistFn) (draw : ℕ → List Mission) (mx my : ℚ)
    (acc : GameS × List Enemy) (e : Enemy) (hd : ValidDraw draw)
    (h : GInv acc.1) : GInv (blastStep dist draw mx my acc e).1 := by
  obtain ⟨g, done⟩ := acc
  simp only [blastStep]
  split_ifs <;>
    first
      | exact h
      | exact explodeEnemy_GInv draw
          (e.takeDamage (65 - dist mx my e.x e.y * (35/100))) true _ hd h

set_option maxHeartbeats 1000000 in
theorem mineBlast_GInv (dist : DistFn) (draw : ℕ → List Mission) (mx my : ℚ)
    (g : GameS) (hd : ValidDraw draw) (h : GInv g) :
    GInv (mineBlast dist draw mx my g) := by
  have hfold : GInv (g.enemies.foldl (blastStep dist draw mx my) (g, [])).1 :=
    foldl_pres (blastStep dist draw mx my) (fun x => GInv x.1)
      (fun b a hb => blastStep_GInv dist draw mx my b a hd hb) g.enemies (g, []) h
  obtain ⟨k1, k2, k3, k4, k5, k6⟩ := hfold
  simp only [mineBlast]
  refine ⟨k1, k2, k3, k4, k5, ?_⟩
  show bossCount ((g.enemies.foldl (blastStep dist draw mx my) (g, [])).2) ≤ 1
  rw [(blastFold dist draw mx my g.enemies g []).1, List.nil_append,
    bossCount_map_blast]
  exact h.2.2.2.2.2

theorem mineStep_GInv (dist : DistFn) (draw : ℕ → List Mission)
    (acc : GameS × List Mine) (m : Mine) (hd : ValidDraw draw)
    (h : GInv acc.1) : GInv (mineStep dist draw acc m).1 := by
  obtain ⟨g, ms⟩ := acc
  simp only [mineStep]
  split_ifs <;>
    first
      | exact h
      | exact mineBlast_GInv dist draw m.x m.y g hd h

theorem contactStep_GInv (dist : DistFn) (dt : ℚ) (g : GameS) (e : Enemy)
    (h : GInv g) : GInv (contactStep dist dt g e) := by
  obtain ⟨h1, h2, h3, h4, h5, h6⟩ := h
  simp only [contactStep]
  split_ifs <;>
    first
      | exact ⟨h1, h2, h3, h4, h5, h6⟩
      | exact ⟨by norm_num, by norm_num, h3, h4,
          fun m hm => MInv_true_of _ m (h5 m hm), h6⟩

theorem enemyProjStep_GInv (dist : DistFn) (acc : GameS × List Projectile)
    (p : Projectile) (h : GInv acc.1) : GInv (enemyProjStep dist acc p).1 := by
  obtain ⟨g, ps⟩ := acc
  obtain ⟨h1, h2, h3, h4, h5, h6⟩ := h
  simp only [enemyProjStep]
  split_ifs <;>
    first
      | exact ⟨h1, h2, h3, h4, h5, h6⟩
      | exact ⟨by norm_num, by norm_num, h3, h4,
          fun m hm => MInv_true_of _ m (h5 m hm), h6⟩

set_option maxHeartbeats 1000000 in
theorem minePass_GInv (dist : DistFn) (draw : ℕ → List Mission) (g : GameS)
    (hd : ValidDraw draw) (h : GInv g) : GInv (minePass dist draw g) := by
  have hr : GInv ((g.mines.foldl (mineStep dist draw) (g, [])).1) :=
    foldl_pres (mineStep dist draw) (fun x => GInv x.1)
      (fun b a hb => mineStep_GInv dist draw b a hd hb) g.mines (g, []) h
  obtain ⟨h1, h2, h3, h4, h5, h6⟩ := hr
  simp only [minePass]
  exact ⟨h1, h2, h3, h4, h5, h6⟩

set_option maxHeartbeats 1000000 in
theorem projectilePass_GInv (dist : DistFn) (draw : ℕ → List Mission)
    (g : GameS) (hd : ValidDraw draw) (h : GInv g) :
    GInv (projectilePass dist draw g) := by
  have hr : GInv ((g.projectiles.foldl (projStep dist draw) (g, [])).1) :=
    foldl_pres (projStep dist draw) (fun x => GInv x.1)
      (fun b a hb => projStep_GInv dist draw b a hd hb) g.projectiles (g, []) h
  obtain ⟨h1, h2, h3, h4, h5, h6⟩ := hr
  simp only [projectilePass]
  exact ⟨h1, h2, h3, h4, h5, h6⟩

theorem contactPass_GInv (dist : DistFn) (dt : ℚ) (g : GameS) (h : GInv g) :
    GInv (contactPass dist dt g) := by
  simp only [contactPass]
  exact foldl_pres _ GInv (fun b a hb => contactStep_GInv dist dt b a hb)
    g.enemies g h

theorem enemyProjPass_GInv (dist : DistFn) (g : GameS) (h : GInv g) :
    GInv (enemyProjPass dist g) := by
  simp only [enemyProjPass]
  exact foldl_pres _ (fun x => GInv x.1)
    (fun b a hb => enemyProjStep_GInv dist b a hb) g.enemyProjectiles (g, []) h

theorem collisionFilters_GInv (g : GameS) (h : GInv g) :
    GInv (collisionFilters g) := by
  obtain ⟨h1, h2, h3, h4, h5, h6⟩ := h
  exact ⟨h1, h2, h3, h4, h5, le_trans (bossCount_filter_le _ _) h6⟩

theorem handleCollisions_GInv (dist : DistFn) (draw : ℕ → List Mission)
    (dt : ℚ) (g : GameS) (hd : ValidDraw draw) (h : GInv g) :
    GInv (handleCollisions dist draw dt g) := by
  unfold handleCollisions
  exact collisionFilters_GInv _
    (enemyProjPass_GInv dist _
      (contactPass_GInv dist dt _
        (minePass_GInv dist draw _ hd
          (projectilePass_GInv dist draw _ hd
            (corePass_GInv dist draw g hd h)))))

theorem timersStep_GInv (dt : ℚ) (g : GameS) (h : GInv g) :
    GInv (timersStep dt g) := by
  obtain ⟨h1, h2, h3, h4, h5, h6⟩ := h
  have e : (8 : ℚ) / 100 = 2 / 25 := by norm_num
  have lo : (1 : ℚ) ≤ lerp g.combo 1 (8 / 100) := by
    rw [e]; exact lerp_toward_one_lower _ h1
  have hi : lerp g.combo 1 (8 / 100) ≤ 6 := by
    rw [e]; exact le_trans (lerp_toward_one_upper _ h1) h2
  simp only [timersStep]
  split_ifs <;>
    first
      | exact ⟨h1, h2, h3, h4, h5, h6⟩
      | exact ⟨lo, hi, h3, h4, h5, h6⟩

theorem snakeStep_GInv (inp : InputFlags) (nm : List Mine)
    (sh : List Projectile) (hp : ℚ × ℚ) (dt : ℚ) (g : GameS) (h : GInv g) :
    GInv (snakeStep inp nm sh hp dt g) := by
  obtain ⟨h1, h2, h3, h4, h5, h6⟩ := h
  simp only [snakeStep]
  split_ifs <;> exact ⟨h1, h2, h3, h4, h5, h6⟩

theorem spawnEnemy_GInv (roll x y : ℚ) (g : GameS) (h : GInv g) :
    GInv (spawnEnemy roll x y g) := by
  obtain ⟨h1, h2, h3, h4, h5, h6⟩ := h
  have hk := spawnEnemy_keeps roll x y g
  refine ⟨?_, ?_, ?_, ?_, ?_, spawnEnemy_bossCount roll x y g h6⟩
  · rw [hk.2.2.2.2.1]; exact h1
  · rw [hk.2.2.2.2.1]; exact h2
  · rw [hk.1]; exact h3
  · rw [hk.1]; exact h4
  · rw [hk.2.2.1, hk.2.2.2.1]; exact h5

theorem spawnBlock_GInv (rolls : List (ℚ × ℚ × ℚ)) (jitter : ℚ) (g : GameS)
    (h : GInv g) : GInv (spawnBlock rolls jitter g) := by
  obtain ⟨h1, h2, h3, h4, h5, h6⟩ := h
  simp only [spawnBlock]
  split_ifs <;>
    first
      | exact ⟨h1, h2, h3, h4, h5, h6⟩
      | exact foldl_pres _ GInv
          (fun (b : GameS) (a : ℚ × ℚ × ℚ) hb => spawnEnemy_GInv a.1 a.2.1 a.2.2 b hb) _ _
          ⟨h1, h2, h3, h4, h5, h6⟩

theorem coreSpawnBlock_GInv (nt : ℚ) (c : Core) (g : GameS) (h : GInv g) :
    GInv (coreSpawnBlock nt c g) := by
  obtain ⟨h1, h2, h3, h4, h5, h6⟩ := h
  simp only [coreSpawnBlock]
  split_ifs <;> exact ⟨h1, h2, h3, h4, h5, h6⟩

theorem kinStep_GInv (o : TickOracles) (dt : ℚ) (g : GameS)
    (hk : ∀ es, List.Forall₂ EnemyKin es (o.moveEnemies es)) (h : GInv g) :
    GInv (kinStep o dt g) := by
  obtain ⟨h1, h2, h3, h4, h5, h6⟩ := h
  refine ⟨h1, h2, h3, h4, h5, ?_⟩
  show bossCount (o.moveEnemies g.enemies) ≤ 1
  rw [forall2_bossCount g.enemies (o.moveEnemies g.enemies) (hk g.enemies)]
  exact h6

theorem missionStepG_GInv (dt : ℚ) (g : GameS) (h : GInv g) :
    GInv (missionStepG dt g) := by
  obtain ⟨h1, h2, h3, h4, h5, h6⟩ := h
  refine ⟨h1, h2, h3, h4, ?_, h6⟩
  intro m hm
  show MInv g.tookDamageThisLevel m
  obtain ⟨m0, hm0, rfl⟩ := List.mem_map.mp hm
  exact missionTick_MInv dt g.tookDamageThisLevel g.comboTier h3 h4 m0 (h5 m0 hm0)

theorem deathCheck_GInv (g : GameS) (h : GInv g) : GInv (deathCheck g) := by
  obtain ⟨h1, h2, h3, h4, h5, h6⟩ := h
  simp only [deathCheck]
  split_ifs <;> exact ⟨h1, h2, h3, h4, h5, h6⟩

theorem updateModel_GInv (o : TickOracles) (dt : ℚ) (g : GameS)
    (ho : ValidOracles o) (h : GInv g) : GInv (updateModel o dt g) := by
  unfold updateModel
  split_ifs with hs
  · exact h
  · exact deathCheck_GInv _
      (missionStepG_GInv dt _
        (handleCollisions_GInv o.dist o.draw dt _ ho.1
          (kinStep_GInv o dt _ ho.2.1
            (coreSpawnBlock_GInv _ _ _
              (spawnBlock_GInv _ _ _
                (snakeStep_GInv _ _ _ _ dt _
                  (timersStep_GInv dt g h)))))))

theorem startGame_GInv (draw : ℕ → List Mission) (hx hy : ℚ)
    (hd : ValidDraw draw) : GInv (startGame draw hx hy) := by
  refine ⟨by norm_num [startGame, resetState], by norm_num [startGame, resetState],
    by norm_num [startGame, resetState], by norm_num [startGame, resetState], ?_, ?_⟩
  · intro m hm
    exact pool_MInv m (hd 1 m (startLevel_mem _ _ m hm)) _
  · show bossCount [] ≤ 1
    norm_num [bossCount]

theorem Reach_GInv (g : GameS) (h : Reach g) : GInv g := by
  induction h with
  | start draw hx hy hd => exact startGame_GInv draw hx hy hd
  | step g o dt hg ho h0 h1 ih => exact updateModel_GInv o dt g ho ih
  | pause g hg ih =>
    obtain ⟨h1, h2, h3, h4, h5, h6⟩ := ih
    exact ⟨h1, h2, h3, h4, h5, h6⟩
  | resume g hg ih =>
    obtain ⟨h1, h2, h3, h4, h5, h6⟩ := ih
    exact ⟨h1, h2, h3, h4, h5, h6⟩
  | restart g draw hx hy hg hd ih => exact startGame_GInv draw hx hy hd

/-- **C10.** In every reachable match state the combo tier is at most 6, and
every comboPeak mission ("Reach combo x10", target 10) in the active set is
neither done nor failed: since the tier is the only source of its progress
and is capped by the combo clamp, the mission can never complete, and having
no timer it can never fail. -/
theorem claim_C10 (g : GameS) (hg : Reach g) :
    g.comboTier ≤ 6 ∧
    ∀ m ∈ g.missions, m.mtype = MType.comboPeak →
      m.target = 10 ∧ m.done = false ∧ m.failed = false := by
  obtain ⟨h1, h2, h3, h4, h5, h6⟩ := Reach_GInv g hg
  refine ⟨h4, fun m hm hmt => ?_⟩
  obtain ⟨t10, _, hdone, hfail, _, _⟩ :=
    MInv_comboPeak_elim g.tookDamageThisLevel m hmt (h5 m hm)
  exact ⟨t10, hdone, hfail⟩

theorem claim_C10_witness :
    (startGame cDraw 0 0).comboTier ≤ 6 ∧
    ∀ m ∈ (startGame cDraw 0 0).missions, m.mtype = MType.comboPeak →
      m.target = 10 ∧ m.done = false ∧ m.failed = false :=
  claim_C10 (startGame cDraw 0 0) (Reach.start cDraw 0 0 (fun _ _ hm => hm))

/-- **C8.** Spawning: on a level divisible by 4 with no boss alive the roll
is overridden and the appended enemy is a boss; when a boss is alive the
appended enemy is the weighted roll's archetype, which is never a boss; and
in every reachable state at most one boss is alive, a bound that survives a
whole spawn block (two spawns from level 6 up). -/
theorem claim_C8 (g : GameS) (hg : Reach g) (roll x y : ℚ)
    (rolls : List (ℚ × ℚ × ℚ)) (jitter : ℚ) :
    (g.level % 4 = 0 ∧ hasBoss g.enemies = false →
      (spawnEnemy roll x y g).enemies =
        g.enemies ++ [Enemy.make .boss x y (1 + ((g.level : ℚ) - 1) * (16/100))] ∧
      (Enemy.make .boss x y (1 + ((g.level : ℚ) - 1) * (16/100))).etype = EType.boss) ∧
    (hasBoss g.enemies = true →
      (spawnEnemy roll x y g).enemies =
        g.enemies ++ [Enemy.make (rollType roll) x y (1 + ((g.level : ℚ) - 1) * (16/100))] ∧
      rollType roll ≠ EType.boss) ∧
    bossCount g.enemies ≤ 1 ∧
    bossCount (spawnBlock rolls jitter g).enemies ≤ 1 := by
  have hGI := Reach_GInv g hg
  have hbc : bossCount g.enemies ≤ 1 := hGI.2.2.2.2.2
  refine ⟨?_, ?_, hbc, ?_⟩
  · rintro ⟨h1, h2⟩
    constructor
    · simp only [spawnEnemy]
      rw [if_pos ⟨h1, by simp [h2]⟩]
    · exact Enemy.make_etype _ _ _ _
  · intro hb
    constructor
    · simp only [spawnEnemy]
      rw [if_neg]
      rintro ⟨-, hc⟩
      exact hc hb
    · exact rollType_ne_boss roll
  · exact (spawnBlock_GInv rolls jitter g hGI).2.2.2.2.2

theorem claim_C8_witness :
    ((startGame cDraw 0 0).level % 4 = 0 ∧
        hasBoss (startGame cDraw 0 0).enemies = false →
      (spawnEnemy 0 0 0 (startGame cDraw 0 0)).enemies =
        (startGame cDraw 0 0).enemies ++
          [Enemy.make .boss 0 0 (1 + (((startGame cDraw 0 0).level : ℚ) - 1) * (16/100))] ∧
      (Enemy.make .boss 0 0
        (1 + (((startGame cDraw 0 0).level : ℚ) - 1) * (16/100))).etype = EType.boss) ∧
    (hasBoss (startGame cDraw 0 0).enemies = true →
      (spawnEnemy 0 0 0 (startGame cDraw 0 0)).enemies =
        (startGame cDraw 0 0).enemies ++
          [Enemy.make (rollType 0) 0 0
            (1 + (((startGame cDraw 0 0).level : ℚ) - 1) * (16/100))] ∧
      rollType 0 ≠ EType.boss) ∧
    bossCount (startGame cDraw 0 0).enemies ≤ 1 ∧
    bossCount (spawnBlock [] 1 (startGame cDraw 0 0)).enemies ≤ 1 :=
  claim_C8 (startGame cDraw 0 0) (Reach.start cDraw 0 0 (fun _ _ hm => hm)) 0 0 0 [] 1

theorem claim_C3_counterexample :
    cG3.combo = 2 ∧ cG3.tookDamageThisLevel = false ∧
    (updateModel cOracles (1/100) cG3).combo = 48/25 ∧
    (48/25 : ℚ) < 2 ∧ (48/25 : ℚ) ≠ 1 ∧
    (updateModel cOracles (1/100) cG3).snake.health = cG3.snake.health ∧
    (updateModel cOracles (1/100) cG3).snake.shield = cG3.snake.shield ∧
    (updateModel cOracles (1/100) cG3).tookDamageThisLevel = false := by
  refine ⟨rfl, rfl, ?_, by norm_num, by norm_num, ?_, ?_, ?_⟩ <;>
    norm_num [updateModel, deathCheck, missionStepG, missionsUpdate, missionTick,
      Mission.update, Mission.inc, handleCollisions, collisionFilters,
      enemyProjPass, enemyProjStep, contactPass, contactStep, minePass, mineStep,
      projectilePass, projStep, corePass, coreStep, kinStep, coreSpawnBlock,
      spawnBlock, spawnEnemy, rollType, hasBoss, snakeStep, Snake.tickTimers,
      Snake.tryDash, Snake.tryTemporal, timersStep, lerp, clamp, jsFloor,
      cOracles, cDistFar, cDraw, cInput, cG3, cG, startGame, resetState,
      Snake.make, startLevel, missionPool, Mission.make, Mine.update]

/-- **C3 (amended).** In every reachable match state the combo multiplier
lies in `[1, 6]`, and the bounds survive any further tick; within a tick the
combo can decrease in exactly two ways: the timer phase either keeps it or,
once the combo timer has expired, applies the idle decay
`lerp(combo, 1, 0.08)` — a decrease toward (but not below) 1 that is not a
damage reset — and the contact-damage phase either keeps it or resets it to
exactly 1. -/
theorem claim_C3 (g : GameS) (hg : Reach g) :
    (1 ≤ g.combo ∧ g.combo ≤ 6) ∧
    (∀ o dt, ValidOracles o →
      1 ≤ (updateModel o dt g).combo ∧ (updateModel o dt g).combo ≤ 6) ∧
    (∀ dt, (timersStep dt g).combo = g.combo ∨
      ((timersStep dt g).combo = lerp g.combo 1 (8/100) ∧
        1 ≤ (timersStep dt g).combo ∧ (timersStep dt g).combo ≤ g.combo)) ∧
    (∀ dist dt e, (contactStep dist dt g e).combo = g.combo ∨
      (contactStep dist dt g e).combo = 1) := by
  have hGI := Reach_GInv g hg
  obtain ⟨h1, h2, h3, h4, h5, h6⟩ := hGI
  have e : (8 : ℚ) / 100 = 2 / 25 := by norm_num
  have lo : (1 : ℚ) ≤ lerp g.combo 1 (8/100) := by
    rw [e]; exact lerp_toward_one_lower _ h1
  have up : lerp g.combo 1 (8/100) ≤ g.combo := by
    rw [e]; exact lerp_toward_one_upper _ h1
  refine ⟨⟨h1, h2⟩, ?_, ?_, ?_⟩
  · intro o dt ho
    have h' := updateModel_GInv o dt g ho ⟨h1, h2, h3, h4, h5, h6⟩
    exact ⟨h'.1, h'.2.1⟩
  · intro dt
    simp only [timersStep]
    split_ifs <;>
      first
        | exact Or.inl rfl
        | exact Or.inr ⟨rfl, lo, up⟩
  · intro dist dt e'
    simp only [contactStep]
    split_ifs <;>
      first
        | exact Or.inl rfl
        | exact Or.inr rfl

theorem claim_C3_witness :
    ((1 ≤ cG.combo ∧ cG.combo ≤ 6) ∧
      (∀ o dt, ValidOracles o →
        1 ≤ (updateModel o dt cG).combo ∧ (updateModel o dt cG).combo ≤ 6) ∧
      (∀ dt, (timersStep dt cG).combo = cG.combo ∨
        ((timersStep dt cG).combo = lerp cG.combo 1 (8/100) ∧
          1 ≤ (timersStep dt cG).combo ∧ (timersStep dt cG).combo ≤ cG.combo)) ∧
      (∀ dist dt e, (contactStep dist dt cG e).combo = cG.combo ∨
        (contactStep dist dt cG e).combo = 1)) :=
  claim_C3 cG (Reach.start cDraw 0 0 (fun _ _ hm => hm))

theorem Mission.inc_term (m : Mission) (a : ℚ)
    (h : m.done = true ∨ m.failed = true) : m.inc a = m := by
  unfold Mission.inc
  rw [if_pos (by rcases h with h | h <;> simp [h])]

theorem MInv_progress_le (took : Bool) (m : Mission) (h : MInv took m) :
    m.progress ≤ m.target := by
  rcases hmt : m.mtype with _ | _ | _ | _ | _
  case runnerKills => exact (MInv_event_elim took m (Or.inl hmt) h).2.2.2.2.1
  case coreCollect =>
    exact (MInv_event_elim took m (Or.inr (Or.inl hmt)) h).2.2.2.2.1
  case mineKills =>
    exact (MInv_event_elim took m (Or.inr (Or.inr hmt)) h).2.2.2.2.1
  case secondsNoHit =>
    obtain ⟨h30, _, _, _, hp30, _, _⟩ := MInv_noHit_elim took m hmt h
    rw [h30]
    exact hp30
  case comboPeak =>
    obtain ⟨h10, _, _, _, _, hp6⟩ := MInv_comboPeak_elim took m hmt h
    rw [h10]
    linarith

theorem missionTick_term (dt : ℚ) (took : Bool) (tier : ℤ) (m : Mission)
    (h : MInv took m) (hterm : m.done = true ∨ m.failed = true) :
    missionTick dt took tier m = m := by
  have hupd := Mission.update_term m dt hterm
  rcases hmt : m.mtype with _ | _ | _ | _ | _
  case runnerKills => simp [missionTick, hupd, hmt]
  case coreCollect => simp [missionTick, hupd, hmt]
  case mineKills => simp [missionTick, hupd, hmt]
  case comboPeak =>
    obtain ⟨_, _, hd, hf, _, _⟩ := MInv_comboPeak_elim took m hmt h
    rcases hterm with hc | hc
    · rw [hd] at hc
      exact absurd hc (by simp)
    · rw [hf] at hc
      exact absurd hc (by simp)
  case secondsNoHit =>
    obtain ⟨h30, hmx, ⟨t, htm⟩, hp0, hp30, hdone, hfail⟩ :=
      MInv_noHit_elim took m hmt h
    by_cases htk : took = true
    · simp [missionTick, hupd, hmt, htk]
    · have hdn : m.done = true := by
        rcases hterm with hc | hc
        · exact hc
        · rcases hfail hc with hd | hd
          · exact hd
          · exact absurd hd htk
      obtain ⟨hp30eq, ht0all⟩ := hdone hdn
      have ht0 : t ≤ 0 := ht0all t htm
      have hclamp : clamp (30 - t) 0 m.target = 30 := by
        rw [h30]
        exact clamp30_big _ (by linarith)
      have hge : clamp (30 - t) 0 m.target ≥ m.target := by
        rw [hclamp, h30]
      have heq : missionTick dt took tier m = { m with progress := clamp (30 - t) 0 m.target, done := if clamp (30 - t) 0 m.target ≥ m.target then true else m.done } := by
        simp [missionTick, hupd, hmt, htk, hmx, htm]
      rw [heq, if_pos hge, hclamp, ← hp30eq, ← hdn]

theorem claim_C2_counterexample :
    cMission.done = false ∧ cMission.failed = false ∧
    cMission.progress < cMission.target ∧
    (updateModel cOracles (1/100) cG2).missions =
      [{ cMission with progress := 30, done := true, failed := true, timer := some 0 }] := by
  refine ⟨rfl, rfl, by norm_num [cMission], ?_⟩
  norm_num [updateModel, deathCheck, missionStepG, missionsUpdate, missionTick,
    Mission.update, Mission.inc, handleCollisions, collisionFilters,
    enemyProjPass, enemyProjStep, contactPass, contactStep, minePass, mineStep,
    projectilePass, projStep, corePass, coreStep, kinStep, coreSpawnBlock,
    spawnBlock, spawnEnemy, rollType, hasBoss, snakeStep, Snake.tickTimers,
    Snake.tryDash, Snake.tryTemporal, timersStep, lerp, clamp, jsFloor,
    cOracles, cDistFar, cDraw, cInput, cG2, cMission, cG, startGame, resetState,
    Snake.make, startLevel, missionPool, Mission.make, Mine.update]

/-- **C2 (amended).** For every mission of a reachable state: once its done
flag or failed flag is set, the explicit mutators are identities (`update`,
`inc`, and the whole per-tick mission step leave it unchanged), and progress
never exceeds the target; done and failed can co-occur, but only on a
no-damage mission — in the very tick whose timer expiry fails an unharmed
secondsNoHit mission, the passive recomputation simultaneously promotes its
progress to the target and marks it done. -/
theorem claim_C2 (g : GameS) (hg : Reach g) (m : Mission) (hm : m ∈ g.missions)
    (dt a : ℚ) :
    (m.done = true ∨ m.failed = true →
      m.update dt = m ∧ m.inc a = m ∧
      missionTick dt g.tookDamageThisLevel g.comboTier m = m) ∧
    m.progress ≤ m.target ∧
    (m.mtype ≠ MType.secondsNoHit → ¬(m.done = true ∧ m.failed = true)) := by
  have hMI : MInv g.tookDamageThisLevel m := (Reach_GInv g hg).2.2.2.2.1 m hm
  refine ⟨fun hterm => ⟨Mission.update_term m dt hterm, Mission.inc_term m a hterm,
    missionTick_term dt _ _ m hMI hterm⟩, MInv_progress_le _ m hMI, ?_⟩
  rintro hne ⟨hd, hf⟩
  rcases hmt : m.mtype with _ | _ | _ | _ | _
  case runnerKills =>
    have := (MInv_event_elim _ m (Or.inl hmt) hMI).2.1
    rw [hf] at this
    exact absurd this (by simp)
  case coreCollect =>
    have := (MInv_event_elim _ m (Or.inr (Or.inl hmt)) hMI).2.1
    rw [hf] at this
    exact absurd this (by simp)
  case mineKills =>
    have := (MInv_event_elim _ m (Or.inr (Or.inr hmt)) hMI).2.1
    rw [hf] at this
    exact absurd this (by simp)
  case secondsNoHit => exact hne hmt
  case comboPeak =>
    have := (MInv_comboPeak_elim _ m hmt hMI).2.2.1
    rw [hd] at this
    exact absurd this (by simp)

theorem claim_C2_witness :
    ((Mission.make .runnerKills 6 none).done = true ∨
        (Mission.make .runnerKills 6 none).failed = true →
      (Mission.make .runnerKills 6 none).update 1 = Mission.make .runnerKills 6 none ∧
      (Mission.make .runnerKills 6 none).inc 1 = Mission.make .runnerKills 6 none ∧
      missionTick 1 (startGame cDraw 0 0).tookDamageThisLevel
          (startGame cDraw 0 0).comboTier (Mission.make .runnerKills 6 none) =
        Mission.make .runnerKills 6 none) ∧
    (Mission.make .runnerKills 6 none).progress ≤
      (Mission.make .runnerKills 6 none).target ∧
    ((Mission.make .runnerKills 6 none).mtype ≠ MType.secondsNoHit →
      ¬((Mission.make .runnerKills 6 none).done = true ∧
        (Mission.make .runnerKills 6 none).failed = true)) :=
  claim_C2 (startGame cDraw 0 0) (Reach.start cDraw 0 0 (fun _ _ hm => hm))
    (Mission.make .runnerKills 6 none)
    (by simp [startGame, resetState, startLevel, cDraw, missionPool]) 1 1

/-! ### Resource bounds across the tick -/

theorem foldl_pres_mem {α β : Type} (f : β → α → β) (P : β → Prop)
    (Q : α → Prop) (h : ∀ b a, Q a → P b → P (f b a)) :
    ∀ l : List α, (∀ a ∈ l, Q a) → ∀ b, P b → P (l.foldl f b) := by
  intro l
  induction l with
  | nil => intro _ b hb; exact hb
  | cons x xs ih =>
    intro hl b hb
    rw [List.foldl_cons]
    exact ih (fun a ha => hl a (List.mem_cons_of_mem x ha)) (f b x)
      (h b x (hl x (List.mem_cons_self x xs)) hb)

theorem clamp_nonneg_left (v hi : ℚ) : 0 ≤ clamp v 0 hi :=
  le_max_left 0 _

theorem SnakeB_applyDamage (s : Snake) (a : ℚ) (ha : 0 ≤ a) (h : SnakeB s) :
    SnakeB (s.applyDamage a).2 ∧
    (s.applyDamage a).2.maxHealth = s.maxHealth := by
  obtain ⟨h1, h2, h3, h4⟩ := h
  by_cases hi : s.invulnTimer > 0
  · simp only [Snake.applyDamage, if_pos hi]
    exact ⟨⟨h1, h2, h3, h4⟩, trivial⟩
  · by_cases hsh : s.shield > 0
    · have hm0 : 0 ≤ min s.shield a := le_min (le_of_lt hsh) ha
      have hms : min s.shield a ≤ s.shield := min_le_left _ _
      have hma : min s.shield a ≤ a := min_le_right _ _
      by_cases hrem : a - min s.shield a > 0
      · simp only [Snake.applyDamage, if_neg hi, if_pos hsh, if_pos hrem]
        refine ⟨⟨?_, ?_, ?_, h4⟩, trivial⟩
        · show 0 ≤ s.shield - min s.shield a
          linarith
        · show s.shield - min s.shield a ≤ 120
          linarith
        · show s.health - (a - min s.shield a) ≤ s.maxHealth
          linarith
      · simp only [Snake.applyDamage, if_neg hi, if_pos hsh, if_neg hrem]
        refine ⟨⟨?_, ?_, h3, h4⟩, trivial⟩
        · show 0 ≤ s.shield - min s.shield a
          linarith
        · show s.shield - min s.shield a ≤ 120
          linarith
    · by_cases hrem : a - 0 > 0
      · simp only [Snake.applyDamage, if_neg hi, if_neg hsh, if_pos hrem]
        refine ⟨⟨?_, ?_, ?_, h4⟩, trivial⟩
        · show 0 ≤ s.shield - 0
          linarith
        · show s.shield - 0 ≤ 120
          linarith
        · show s.health - (a - 0) ≤ s.maxHealth
          linarith
      · simp only [Snake.applyDamage, if_neg hi, if_neg hsh, if_neg hrem]
        exact ⟨⟨by show 0 ≤ s.shield - 0; linarith,
          by show s.shield - 0 ≤ 120; linarith, h3, h4⟩, trivial⟩

theorem SnakeB_heal (s : Snake) (a : ℚ) (h : SnakeB s) : SnakeB (s.heal a) := by
  obtain ⟨h1, h2, h3, h4⟩ := h
  exact ⟨h1, h2, clamp_le_hi _ _ _ h4, h4⟩

theorem SnakeB_addShield (s : Snake) (a : ℚ) (h : SnakeB s) :
    SnakeB (s.addShield a) := by
  obtain ⟨h1, h2, h3, h4⟩ := h
  exact ⟨clamp_nonneg_left _ _, clamp_le_hi _ _ _ (by norm_num), h3, h4⟩

theorem SnakeB_grow (s : Snake) (n : ℕ) (h : SnakeB s) : SnakeB (s.grow n) := h

theorem SnakeB_tickTimers (s : Snake) (dt : ℚ) (h : SnakeB s) :
    SnakeB (s.tickTimers dt) := by
  obtain ⟨h1, h2, h3, h4⟩ := h
  simp only [Snake.tickTimers]
  split_ifs <;> exact ⟨h1, h2, h3, h4⟩

theorem SnakeB_tryDash (p : Bool) (s : Snake) (h : SnakeB s) :
    SnakeB (Snake.tryDash p s) := by
  obtain ⟨h1, h2, h3, h4⟩ := h
  simp only [Snake.tryDash]
  split_ifs <;> exact ⟨h1, h2, h3, h4⟩

theorem SnakeB_tryTemporal (p : Bool) (s : Snake) (h : SnakeB s) :
    SnakeB (Snake.tryTemporal p s) := by
  obtain ⟨h1, h2, h3, h4⟩ := h
  simp only [Snake.tryTemporal]
  split_ifs <;> exact ⟨h1, h2, h3, h4⟩

theorem takeDamage_cd (e : Enemy) (a : ℚ) :
    (e.takeDamage a).contactDamage = e.contactDamage := rfl

theorem blastOne_cd (dist : DistFn) (mx my : ℚ) (e : Enemy) :
    (blastOne dist mx my e).contactDamage = e.contactDamage := by
  unfold blastOne
  split_ifs <;> rfl

theorem Enemy.make_cd_nonneg (t : EType) (x y sc : ℚ) (h : 0 ≤ sc) :
    0 ≤ (Enemy.make t x y sc).contactDamage := by
  show (0:ℚ) ≤ ((jsRound ((Enemy.typed t x y).contactDamage * (7/10 + sc * (4/10))) : ℤ) : ℚ)
  have hbase : 0 ≤ (Enemy.typed t x y).contactDamage := by
    cases t <;> norm_num [Enemy.typed, Enemy.base]
  have hfac : 0 ≤ (7:ℚ)/10 + sc * (4/10) := by nlinarith
  exact_mod_cast jsRound_nonneg _ (mul_nonneg hbase hfac)

theorem gainScore_RInv (draw : ℕ → List Mission) (p : ℚ) (g : GameS)
    (h : ResourceInv g) : ResourceInv (gainScore draw p g) := by
  obtain ⟨h1, h2, h3, h4, h5, h6, h7⟩ := h
  have hb : SnakeB { g.snake with maxHealth := g.snake.maxHealth + 6, health := min (g.snake.maxHealth + 6) (g.snake.health + 18) } := by
    refine ⟨h1, h2, ?_, ?_⟩
    · show min (g.snake.maxHealth + 6) (g.snake.health + 18) ≤ g.snake.maxHealth + 6
      exact min_le_left _ _
    · show (0:ℚ) ≤ g.snake.maxHealth + 6
      linarith
  obtain ⟨b1, b2, b3, b4⟩ := SnakeB_addShield _ 18 hb
  simp only [gainScore]
  split_ifs with hx
  · exact ⟨b1, b2, b3, b4, h5, h6, Nat.le_succ_of_le h7⟩
  · exact ⟨h1, h2, h3, h4, h5, h6, h7⟩

theorem explodeEnemy_RInv (draw : ℕ → List Mission) (e : Enemy) (isMine : Bool)
    (g : GameS) (h : ResourceInv g) :
    ResourceInv (explodeEnemy draw e isMine g) := by
  obtain ⟨h1, h2, h3, h4, h5, h6, h7⟩ := gainScore_RInv draw e.scoreValue g h
  simp only [explodeEnemy]
  split_ifs <;> exact ⟨h1, h2, h3, h4, h5, h6, h7⟩

theorem coreStep_RInv (dist : DistFn) (draw : ℕ → List Mission) (g : GameS)
    (c : Core) (h : ResourceInv g) : ResourceInv (coreStep dist draw g c) := by
  obtain ⟨h1, h2, h3, h4, h5, h6, h7⟩ := h
  have hheal : ResourceInv { g with snake := g.snake.heal 15 } :=
    ⟨h1, h2, by show clamp (g.snake.health + 15) 0 g.snake.maxHealth ≤ g.snake.maxHealth; exact clamp_le_hi _ _ _ h4, h4, h5, h6, h7⟩
  have hsh : ResourceInv { g with snake := g.snake.addShield 20 } :=
    ⟨clamp_nonneg_left _ _, by show clamp (g.snake.shield + 20) 0 120 ≤ 120; exact clamp_le_hi _ _ _ (by norm_num), h3, h4, h5, h6, h7⟩
  simp only [coreStep]
  split_ifs with hc
  · cases hk : c.kind
    · simp only [hk]
      obtain ⟨k1, k2, k3, k4, k5, k6, k7⟩ := gainScore_RInv draw c.value g ⟨h1, h2, h3, h4, h5, h6, h7⟩
      exact ⟨k1, k2, k3, k4, k5, k6, k7⟩
    · simp only [hk]
      obtain ⟨k1, k2, k3, k4, k5, k6, k7⟩ :=
        gainScore_RInv draw (c.value + 10) { g with snake := g.snake.heal 15 } hheal
      exact ⟨k1, k2, k3, k4, k5, k6, k7⟩
    · simp only [hk]
      obtain ⟨k1, k2, k3, k4, k5, k6, k7⟩ :=
        gainScore_RInv draw (c.value + 5) { g with snake := g.snake.addShield 20 } hsh
      exact ⟨k1, k2, k3, k4, k5, k6, k7⟩
  · exact ⟨h1, h2, h3, h4, h5, h6, h7⟩

theorem corePass_RInv (dist : DistFn) (draw : ℕ → List Mission) (g : GameS)
    (h : ResourceInv g) : ResourceInv (corePass dist draw g) := by
  obtain ⟨k1, k2, k3, k4, k5, k6, k7⟩ :=
    foldl_pres (coreStep dist draw) ResourceInv
      (fun b a hb => coreStep_RInv dist draw b a hb) g.cores g h
  exact ⟨k1, k2, k3, k4, k5, k6, k7⟩

theorem projHitEnemies_cd (dist : DistFn) (p : Projectile) :
    ∀ es : List Enemy, (∀ e ∈ es, 0 ≤ e.contactDamage) →
      ∀ e' ∈ (projHitEnemies dist p es).1, 0 ≤ e'.contactDamage := by
  intro es
  induction es with
  | nil =>
    intro _ e' he'
    simp [projHitEnemies] at he'
  | cons e rest ih =>
    intro hes e' he'
    simp only [projHitEnemies] at he'
    split_ifs at he' with hc
    · simp only at he'
      rcases List.mem_cons.mp he' with rfl | hmem
      · rw [takeDamage_cd]
        exact hes e (List.mem_cons_self _ _)
      · exact hes e' (List.mem_cons_of_mem _ hmem)
    · simp only at he'
      rcases List.mem_cons.mp he' with rfl | hmem
      · exact hes e' (List.mem_cons_self _ _)
      · exact ih (fun a ha => hes a (List.mem_cons_of_mem _ ha)) e' hmem

theorem projStep_RInv (dist : DistFn) (draw : ℕ → List Mission)
    (acc : GameS × List Projectile) (p : Projectile)
    (h : ResourceInv acc.1) : ResourceInv (projStep dist draw acc p).1 := by
  obtain ⟨g, ps⟩ := acc
  rcases hm : projHitEnemies dist p g.enemies with ⟨es, oe⟩
  obtain ⟨h1, h2, h3, h4, h5, h6, h7⟩ := h
  have hes : ∀ e ∈ es, 0 ≤ e.contactDamage := by
    have := projHitEnemies_cd dist p g.enemies h5
    rw [hm] at this
    exact this
  have hGes : ResourceInv { g with enemies := es } :=
    ⟨h1, h2, h3, h4, hes, h6, h7⟩
  cases oe with
  | none =>
    simp only [projStep, hm]
    split_ifs <;>
      first
        | exact ⟨h1, h2, h3, h4, h5, h6, h7⟩
        | exact hGes
  | some hit =>
    simp only [projStep, hm]
    split_ifs with c1 c2
    · exact hGes
    · exact explodeEnemy_RInv draw hit false _ hGes
    · exact ⟨h1, h2, h3, h4, h5, h6, h7⟩

set_option maxHeartbeats 1000000 in
theorem projectilePass_RInv (dist : DistFn) (draw : ℕ → List Mission)
    (g : GameS) (h : ResourceInv g) : ResourceInv (projectilePass dist draw g) := by
  have hr : ResourceInv ((g.projectiles.foldl (projStep dist draw) (g, [])).1) :=
    foldl_pres (projStep dist draw) (fun x => ResourceInv x.1)
      (fun b a hb => projStep_RInv dist draw b a hb) g.projectiles (g, []) h
  obtain ⟨h1, h2, h3, h4, h5, h6, h7⟩ := hr
  simp only [projectilePass]
  exact ⟨h1, h2, h3, h4, h5, h6, h7⟩

theorem blastStep_RInv (dist : DistFn) (draw : ℕ → List Mission) (mx my : ℚ)
    (acc : GameS × List Enemy) (e : Enemy) (h : ResourceInv acc.1) :
    ResourceInv (blastStep dist draw mx my acc e).1 := by
  obtain ⟨g, done⟩ := acc
  simp only [blastStep]
  split_ifs <;>
    first
      | exact h
      | exact explodeEnemy_RInv draw
          (e.takeDamage (65 - dist mx my e.x e.y * (35/100))) true _ h

set_option maxHeartbeats 1000000 in
theorem mineBlast_RInv (dist : DistFn) (draw : ℕ → List Mission) (mx my : ℚ)
    (g : GameS) (h : ResourceInv g) : ResourceInv (mineBlast dist draw mx my g) := by
  have hfold : ResourceInv (g.enemies.foldl (blastStep dist draw mx my) (g, [])).1 :=
    foldl_pres (blastStep dist draw mx my) (fun x => ResourceInv x.1)
      (fun b a hb => blastStep_RInv dist draw mx my b a hb) g.enemies (g, []) h
  obtain ⟨k1, k2, k3, k4, k5, k6, k7⟩ := hfold
  simp only [mineBlast]
  refine ⟨k1, k2, k3, k4, ?_, k6, k7⟩
  show ∀ e ∈ (g.enemies.foldl (blastStep dist draw mx my) (g, [])).2,
    0 ≤ e.contactDamage
  rw [(blastFold dist draw mx my g.enemies g []).1, List.nil_append]
  intro e' he'
  obtain ⟨e0, he0, rfl⟩ := List.mem_map.mp he'
  rw [blastOne_cd]
  exact h.2.2.2.2.1 e0 he0

theorem mineStep_RInv (dist : DistFn) (draw : ℕ → List Mission)
    (acc : GameS × List Mine) (m : Mine) (h : ResourceInv acc.1) :
    ResourceInv (mineStep dist draw acc m).1 := by
  obtain ⟨g, ms⟩ := acc
  simp only [mineStep]
  split_ifs <;>
    first
      | exact h
      | exact mineBlast_RInv dist draw m.x m.y g h

set_option maxHeartbeats 1000000 in
theorem minePass_RInv (dist : DistFn) (draw : ℕ → List Mission) (g : GameS)
    (h : ResourceInv g) : ResourceInv (minePass dist draw g) := by
  have hr : ResourceInv ((g.mines.foldl (mineStep dist draw) (g, [])).1) :=
    foldl_pres (mineStep dist draw) (fun x => ResourceInv x.1)
      (fun b a hb => mineStep_RInv dist draw b a hb) g.mines (g, []) h
  obtain ⟨h1, h2, h3, h4, h5, h6, h7⟩ := hr
  simp only [minePass]
  exact ⟨h1, h2, h3, h4, h5, h6, h7⟩

theorem contactStep_RInv (dist : DistFn) (dt : ℚ) (g : GameS) (e : Enemy)
    (hdt : 0 ≤ dt) (hcd : 0 ≤ e.contactDamage) (h : ResourceInv g) :
    ResourceInv (contactStep dist dt g e) := by
  obtain ⟨h1, h2, h3, h4, h5, h6, h7⟩ := h
  have ha : 0 ≤ e.contactDamage * dt * (35/10) :=
    mul_nonneg (mul_nonneg hcd hdt) (by norm_num)
  obtain ⟨⟨b1, b2, b3, b4⟩, bm⟩ :=
    SnakeB_applyDamage g.snake _ ha ⟨h1, h2, h3, h4⟩
  simp only [contactStep]
  split_ifs <;>
    first
      | exact ⟨h1, h2, h3, h4, h5, h6, h7⟩
      | exact ⟨b1, b2, b3, b4, h5, h6, h7⟩

theorem contactPass_RInv (dist : DistFn) (dt : ℚ) (g : GameS) (hdt : 0 ≤ dt)
    (h : ResourceInv g) : ResourceInv (contactPass dist dt g) := by
  simp only [contactPass]
  exact foldl_pres_mem (contactStep dist dt) ResourceInv
    (fun e => 0 ≤ e.contactDamage)
    (fun b a ha hb => contactStep_RInv dist dt b a hdt ha hb)
    g.enemies h.2.2.2.2.1 g h

theorem enemyProjStep_RInv (dist : DistFn) (acc : GameS × List Projectile)
    (p : Projectile) (hp : 0 ≤ p.damage)
    (h : ResourceInv acc.1 ∧ ∀ q ∈ acc.2, 0 ≤ q.damage) :
    ResourceInv (enemyProjStep dist acc p).1 ∧
      ∀ q ∈ (enemyProjStep dist acc p).2, 0 ≤ q.damage := by
  obtain ⟨g, ps⟩ := acc
  obtain ⟨⟨h1, h2, h3, h4, h5, h6, h7⟩, hq⟩ := h
  obtain ⟨⟨b1, b2, b3, b4⟩, bm⟩ :=
    SnakeB_applyDamage g.snake p.damage hp ⟨h1, h2, h3, h4⟩
  have happ : ∀ q ∈ ps ++ [p], 0 ≤ q.damage := by
    intro q hql
    rcases List.mem_append.mp hql with hh | hh
    · exact hq q hh
    · rw [List.mem_singleton.mp hh]
      exact hp
  have happ2 : ∀ q ∈ ps ++ [{ p with alive := false }], 0 ≤ q.damage := by
    intro q hql
    rcases List.mem_append.mp hql with hh | hh
    · exact hq q hh
    · rw [List.mem_singleton.mp hh]
      exact hp
  simp only [enemyProjStep]
  split_ifs <;>
    first
      | exact ⟨⟨h1, h2, h3, h4, h5, h6, h7⟩, happ⟩
      | exact ⟨⟨b1, b2, b3, b4, h5, h6, h7⟩, happ2⟩

set_option maxHeartbeats 1000000 in
theorem enemyProjPass_RInv (dist : DistFn) (g : GameS) (h : ResourceInv g) :
    ResourceInv (enemyProjPass dist g) := by
  have hr : ResourceInv ((g.enemyProjectiles.foldl (enemyProjStep dist) (g, [])).1) ∧
      ∀ q ∈ (g.enemyProjectiles.foldl (enemyProjStep dist) (g, [])).2, 0 ≤ q.damage :=
    foldl_pres_mem (enemyProjStep dist)
      (fun x => ResourceInv x.1 ∧ ∀ q ∈ x.2, 0 ≤ q.damage)
      (fun q => 0 ≤ q.damage)
      (fun b a ha hb => enemyProjStep_RInv dist b a ha hb)
      g.enemyProjectiles h.2.2.2.2.2.1 (g, [])
      ⟨h, fun q hq0 => absurd hq0 (List.not_mem_nil q)⟩
  obtain ⟨⟨h1, h2, h3, h4, h5, h6, h7⟩, hq⟩ := hr
  simp only [enemyProjPass]
  exact ⟨h1, h2, h3, h4, h5, hq, h7⟩

theorem collisionFilters_RInv (g : GameS) (h : ResourceInv g) :
    ResourceInv (collisionFilters g) := by
  obtain ⟨h1, h2, h3, h4, h5, h6, h7⟩ := h
  refine ⟨h1, h2, h3, h4, ?_, ?_, h7⟩
  · intro e he
    exact h5 e (List.mem_of_mem_filter he)
  · intro p hp
    exact h6 p (List.mem_of_mem_filter hp)

theorem handleCollisions_RInv (dist : DistFn) (draw : ℕ → List Mission)
    (dt : ℚ) (g : GameS) (hdt : 0 ≤ dt) (h : ResourceInv g) :
    ResourceInv (handleCollisions dist draw dt g) := by
  unfold handleCollisions
  exact collisionFilters_RInv _
    (enemyProjPass_RInv dist _
      (contactPass_RInv dist dt _ hdt
        (minePass_RInv dist draw _
          (projectilePass_RInv dist draw _
            (corePass_RInv dist draw g h)))))

theorem timersStep_RInv (dt : ℚ) (g : GameS) (h : ResourceInv g) :
    ResourceInv (timersStep dt g) := by
  obtain ⟨h1, h2, h3, h4, h5, h6, h7⟩ := h
  simp only [timersStep]
  split_ifs <;> exact ⟨h1, h2, h3, h4, h5, h6, h7⟩

theorem snakeStep_RInv (inp : InputFlags) (nm : List Mine)
    (sh : List Projectile) (hp : ℚ × ℚ) (dt : ℚ) (g : GameS)
    (h : ResourceInv g) : ResourceInv (snakeStep inp nm sh hp dt g) := by
  obtain ⟨h1, h2, h3, h4, h5, h6, h7⟩ := h
  obtain ⟨b1, b2, b3, b4⟩ :=
    SnakeB_tryTemporal inp.temporal _
      (SnakeB_tryDash inp.dash _ (SnakeB_tickTimers g.snake dt ⟨h1, h2, h3, h4⟩))
  simp only [snakeStep]
  split_ifs <;> exact ⟨b1, b2, b3, b4, h5, h6, h7⟩

theorem forall2_exists_left {α β : Type} {R : α → β → Prop} :
    ∀ {l1 : List α} {l2 : List β}, List.Forall₂ R l1 l2 →
      ∀ b ∈ l2, ∃ a ∈ l1, R a b := by
  intro l1 l2 hf
  induction hf with
  | nil =>
    intro b hb
    exact absurd hb (List.not_mem_nil b)
  | cons hR htail ih =>
    intro b hb
    rcases List.mem_cons.mp hb with rfl | hb2
    · exact ⟨_, List.mem_cons_self _ _, hR⟩
    · obtain ⟨a, ha, hr⟩ := ih b hb2
      exact ⟨a, List.mem_cons_of_mem _ ha, hr⟩

theorem spawnEnemy_RInv (roll x y : ℚ) (g : GameS) (h : ResourceInv g) :
    ResourceInv (spawnEnemy roll x y g) := by
  obtain ⟨h1, h2, h3, h4, h5, h6, h7⟩ := h
  have hsc : (0:ℚ) ≤ 1 + ((g.level : ℚ) - 1) * (16/100) := by
    have hl : (1:ℚ) ≤ (g.level : ℚ) := by exact_mod_cast h7
    nlinarith
  simp only [spawnEnemy]
  refine ⟨h1, h2, h3, h4, ?_, h6, h7⟩
  intro e he
  rcases List.mem_append.mp he with hh | hh
  · exact h5 e hh
  · rw [List.mem_singleton.mp hh]
    exact Enemy.make_cd_nonneg _ _ _ _ hsc

theorem spawnBlock_RInv (rolls : List (ℚ × ℚ × ℚ)) (jitter : ℚ) (g : GameS)
    (h : ResourceInv g) : ResourceInv (spawnBlock rolls jitter g) := by
  obtain ⟨h1, h2, h3, h4, h5, h6, h7⟩ := h
  simp only [spawnBlock]
  split_ifs <;>
    first
      | exact ⟨h1, h2, h3, h4, h5, h6, h7⟩
      | exact foldl_pres _ ResourceInv
          (fun (b : GameS) (a : ℚ × ℚ × ℚ) hb => spawnEnemy_RInv a.1 a.2.1 a.2.2 b hb) _ _
          ⟨h1, h2, h3, h4, h5, h6, h7⟩

theorem coreSpawnBlock_RInv (nt : ℚ) (c : Core) (g : GameS)
    (h : ResourceInv g) : ResourceInv (coreSpawnBlock nt c g) := by
  obtain ⟨h1, h2, h3, h4, h5, h6, h7⟩ := h
  simp only [coreSpawnBlock]
  split_ifs <;> exact ⟨h1, h2, h3, h4, h5, h6, h7⟩

theorem kinStep_RInv (o : TickOracles) (dt : ℚ) (g : GameS)
    (ho : ValidOracles o) (h : ResourceInv g) : ResourceInv (kinStep o dt g) := by
  obtain ⟨h1, h2, h3, h4, h5, h6, h7⟩ := h
  refine ⟨h1, h2, h3, h4, ?_, ?_, h7⟩
  · show ∀ e ∈ o.moveEnemies g.enemies, 0 ≤ e.contactDamage
    intro e he
    obtain ⟨a, ha, hr⟩ := forall2_exists_left (ho.2.1 g.enemies) e he
    rw [hr]
    exact h5 a ha
  · show ∀ p ∈ o.moveEnemyProjs g.enemyProjectiles ++ o.fired, 0 ≤ p.damage
    intro p hp
    rcases List.mem_append.mp hp with hh | hh
    · obtain ⟨a, ha, hr⟩ := forall2_exists_left (ho.2.2.2.1 g.enemyProjectiles) p hh
      rw [hr]
      exact h6 a ha
    · rcases ho.2.2.2.2.1 p hh with hd | hd <;> rw [hd] <;> norm_num

theorem missionStepG_RInv (dt : ℚ) (g : GameS) (h : ResourceInv g) :
    ResourceInv (missionStepG dt g) := by
  obtain ⟨h1, h2, h3, h4, h5, h6, h7⟩ := h
  exact ⟨h1, h2, h3, h4, h5, h6, h7⟩

theorem deathCheck_RInv (g : GameS) (h : ResourceInv g) :
    ResourceInv (deathCheck g) := by
  obtain ⟨h1, h2, h3, h4, h5, h6, h7⟩ := h
  simp only [deathCheck]
  split_ifs <;> exact ⟨h1, h2, h3, h4, h5, h6, h7⟩

theorem updateModel_RInv (o : TickOracles) (dt : ℚ) (g : GameS)
    (ho : ValidOracles o) (hdt : 0 ≤ dt) (h : ResourceInv g) :
    ResourceInv (updateModel o dt g) := by
  unfold updateModel
  split_ifs with hs
  · exact h
  · exact deathCheck_RInv _
      (missionStepG_RInv dt _
        (handleCollisions_RInv o.dist o.draw dt _ hdt
          (kinStep_RInv o dt _ ho
            (coreSpawnBlock_RInv _ _ _
              (spawnBlock_RInv _ _ _
                (snakeStep_RInv _ _ _ _ dt _
                  (timersStep_RInv dt g h)))))))

theorem cOracles_valid : ValidOracles cOracles := by
  refine ⟨fun _ _ hm => hm, ?_, ?_, ?_, ?_, by norm_num [cOracles], by norm_num [cOracles]⟩
  · intro es
    exact List.forall₂_same.mpr (fun e _ => rfl)
  · intro ps
    exact List.forall₂_same.mpr (fun p _ => rfl)
  · intro ps
    exact List.forall₂_same.mpr (fun p _ => rfl)
  · intro p hp
    exact absurd hp (List.not_mem_nil p)

theorem cG_RInv : ResourceInv cG := by
  refine ⟨?_, ?_, ?_, ?_, ?_, ?_, ?_⟩ <;>
    norm_num [ResourceInv, cG, startGame, resetState, Snake.make]

theorem claim_C1_counterexample :
    0 ≤ cG1.snake.health ∧ cG1.snake.health ≤ cG1.snake.maxHealth ∧
    0 ≤ cG1.snake.shield ∧ cG1.snake.shield ≤ 120 ∧
    (updateModel cOraclesZero (1/100) cG1).snake.health = -2 ∧
    ¬(0 ≤ (updateModel cOraclesZero (1/100) cG1).snake.health) := by
  have hh : (updateModel cOraclesZero (1/100) cG1).snake.health = -2 := by
    norm_num [updateModel, deathCheck, missionStepG, missionsUpdate, missionTick,
      Mission.update, Mission.inc, handleCollisions, collisionFilters,
      enemyProjPass, enemyProjStep, contactPass, contactStep, minePass, mineStep,
      projectilePass, projStep, corePass, coreStep, kinStep, coreSpawnBlock,
      spawnBlock, spawnEnemy, rollType, hasBoss, snakeStep, Snake.tickTimers,
      Snake.tryDash, Snake.tryTemporal, Snake.applyDamage, Snake.heal,
      Snake.addShield, Snake.grow, gainScore, rewardScore, explodeEnemy,
      missionsOnEvent, projHitEnemies, blastOne, mineTrigger, Enemy.takeDamage,
      timersStep, lerp, clamp, jsFloor, jsRound, cOraclesZero, cOracles,
      cDistZero, cDraw, cInput, cG1, cG, startGame, resetState, Snake.make,
      startLevel, missionPool, Mission.make, Mine.update]
  refine ⟨by norm_num [cG1, cG, startGame, resetState, Snake.make],
    by norm_num [cG1, cG, startGame, resetState, Snake.make],
    by norm_num [cG1, cG, startGame, resetState, Snake.make],
    by norm_num [cG1, cG, startGame, resetState, Snake.make],
    hh, by rw [hh]; norm_num⟩

/-- **C1 (amended).** From any state satisfying the resource bounds, a tick
with valid oracles and a nonnegative frame delta preserves
`0 ≤ shield ≤ 120` and `health ≤ maxHealth`; the lower health bound is not an
invariant: `applyDamage` has no floor at zero, so health can end a tick
negative (the death check then ends the match; the HUD merely clamps the
displayed value). -/
theorem claim_C1 (o : TickOracles) (dt : ℚ) (g : GameS) (ho : ValidOracles o)
    (hdt : 0 ≤ dt) (h : ResourceInv g) :
    (0 ≤ g.snake.shield ∧ g.snake.shield ≤ 120 ∧
      g.snake.health ≤ g.snake.maxHealth) ∧
    0 ≤ (updateModel o dt g).snake.shield ∧
    (updateModel o dt g).snake.shield ≤ 120 ∧
    (updateModel o dt g).snake.health ≤ (updateModel o dt g).snake.maxHealth ∧
    ResourceInv (updateModel o dt g) := by
  have h' := updateModel_RInv o dt g ho hdt h
  exact ⟨⟨h.1, h.2.1, h.2.2.1⟩, h'.1, h'.2.1, h'.2.2.1, h'⟩

theorem claim_C1_witness :
    (0 ≤ cG.snake.shield ∧ cG.snake.shield ≤ 120 ∧
      cG.snake.health ≤ cG.snake.maxHealth) ∧
    0 ≤ (updateModel cOracles (1/100) cG).snake.shield ∧
    (updateModel cOracles (1/100) cG).snake.shield ≤ 120 ∧
    (updateModel cOracles (1/100) cG).snake.health ≤
      (updateModel cOracles (1/100) cG).snake.maxHealth ∧
    ResourceInv (updateModel cOracles (1/100) cG) :=
  claim_C1 cOracles (1/100) cG cOracles_valid (by norm_num) cG_RInv
